import Mathlib

/-!
Verification development for the RCS render/geometry harness.

Shallow embedding of the four core modules:
- rcs/geom/bbox_compare.py  (BBoxComparator)
- rcs/geom/bbox_align.py    (AffineCandidateAligner)
- rcs/geom/svg_viewport_normalize.py (ViewportNormalizer)
- rcs/geom/bbox_report.py   (RegressionReporter)

Modelling conventions:
- Python floats are modelled as exact rationals; decimal literals are taken
  at face value, and non-finite float values (inf and nan) are outside the
  model.  Python integers are modelled as Int.
- Python str methods (lower, upper, strip) are modelled by ASCII versions,
  since the repository only feeds ASCII status tags and unit names through
  them; Unicode case folding is outside the model.
- Optional values and the tolerant None-handling of the source are modelled
  with Option.  Input positions typed Any in the source, where the code
  coerces list or tuple shapes and treats everything else as absent, are
  modelled at the already-coerced tuple type wrapped in Option.
-/

namespace RCS

/-! ASCII models of the Python string methods used by the source. -/

/-- ASCII lower-casing of one character, modelling Python str.lower. -/
def lowerChar (c : Char) : Char :=
  if 'A' ≤ c ∧ c ≤ 'Z' then Char.ofNat (c.toNat + 32) else c

/-- ASCII upper-casing of one character, modelling Python str.upper. -/
def upperChar (c : Char) : Char :=
  if 'a' ≤ c ∧ c ≤ 'z' then Char.ofNat (c.toNat - 32) else c

/-- ASCII whitespace test, modelling the regex class backslash-s of Python. -/
def pyIsSpace (c : Char) : Bool :=
  c = ' ' ∨ c = '\t' ∨ c = '\n' ∨ c = '\r' ∨ c = '\x0b' ∨ c = '\x0c'

/-- ASCII model of Python str.lower. -/
def asciiLower (s : String) : String := ⟨s.data.map lowerChar⟩

/-- ASCII model of Python str.upper. -/
def asciiUpper (s : String) : String := ⟨s.data.map upperChar⟩

/-- ASCII model of Python str.strip. -/
def asciiStrip (s : String) : String :=
  ⟨((s.data.dropWhile pyIsSpace).reverse.dropWhile pyIsSpace).reverse⟩

/-!
Embedding of rcs/geom/bbox_compare.py.
-/

/-- Observed bbox from the rasterizer: an (x, y, w, h) integer pixel rect. -/
abbrev QtBBox := Int × Int × Int × Int

/-- Corner-pair tuple (x0, y0, x1, y1) used by the geometry side. -/
abbrev XYXY := ℚ × ℚ × ℚ × ℚ

/-- Embeds the frozen dataclass BBoxXYXY of bbox_compare.py. -/
structure BBoxXYXY where
  x0 : ℚ
  y0 : ℚ
  x1 : ℚ
  y1 : ℚ
deriving DecidableEq

/-- Width property of BBoxXYXY. -/
def BBoxXYXY.w (b : BBoxXYXY) : ℚ := b.x1 - b.x0

/-- Height property of BBoxXYXY. -/
def BBoxXYXY.h (b : BBoxXYXY) : ℚ := b.y1 - b.y0

/-- Embeds BBoxXYXY.as_list. -/
def BBoxXYXY.as_list (b : BBoxXYXY) : List ℚ := [b.x0, b.y0, b.x1, b.y1]

/-- Embeds bbox_from_alpha_bbox: convert alpha bbox (x,y,w,h) to xyxy bbox.
A nonempty integer 4-tuple is always truthy in Python, so the falsy guard
of the source coincides with the None case here. -/
def bbox_from_alpha_bbox : Option QtBBox → Option BBoxXYXY
  | none => none
  | some (x, y, w, h) =>
    if w ≤ 0 ∨ h ≤ 0 then none
    else some ⟨(x : ℚ), (y : ℚ), ((x + w : Int) : ℚ), ((y + h : Int) : ℚ)⟩

/-- Embeds bbox_from_xyxy_tuple: coerce (x0,y0,x1,y1) to BBoxXYXY.  The
shape checks of the source are absorbed by the Option XYXY input type. -/
def bbox_from_xyxy_tuple : Option XYXY → Option BBoxXYXY
  | none => none
  | some (a, b, c, d) => some ⟨a, b, c, d⟩

/-- Per-corner and per-dimension deltas recorded under the diff key. -/
structure BBoxDiff where
  dx0 : ℚ
  dy0 : ℚ
  dx1 : ℚ
  dy1 : ℚ
  dw : ℚ
  dh : ℚ
deriving DecidableEq

/-- JSON-serializable report dict returned by compare_bboxes. -/
structure CompareReport where
  status : String
  tol_abs_px : ℚ
  warn_abs_px : ℚ
  qt_bbox_xyxy : Option (List ℚ)
  geom_bbox_xyxy : Option (List ℚ)
  max_abs_err_px : Option ℚ
  diff : Option BBoxDiff
  notes : List String
deriving DecidableEq

/-- Embeds compare_bboxes of bbox_compare.py. -/
def compare_bboxes (qt_alpha_bbox : Option QtBBox) (geom_bbox_xyxy : Option XYXY)
    (tol_abs_px warn_abs_px : ℚ) : CompareReport :=
  let qt_bbox := bbox_from_alpha_bbox qt_alpha_bbox
  let geom_bbox := bbox_from_xyxy_tuple geom_bbox_xyxy
  match geom_bbox with
  | none =>
    { status := "NO_GEOM"
      tol_abs_px := tol_abs_px
      warn_abs_px := warn_abs_px
      qt_bbox_xyxy := qt_bbox.map BBoxXYXY.as_list
      geom_bbox_xyxy := none
      max_abs_err_px := none
      diff := none
      notes := ["geometry bbox not available"] }
  | some gb =>
    match qt_bbox with
    | none =>
      { status := "INVISIBLE"
        tol_abs_px := tol_abs_px
        warn_abs_px := warn_abs_px
        qt_bbox_xyxy := none
        geom_bbox_xyxy := some gb.as_list
        max_abs_err_px := none
        diff := none
        notes := ["QtSvg alpha bbox missing (likely invisible render)"] }
    | some qb =>
      let dx0 := qb.x0 - gb.x0
      let dy0 := qb.y0 - gb.y0
      let dx1 := qb.x1 - gb.x1
      let dy1 := qb.y1 - gb.y1
      let dw := qb.w - gb.w
      let dh := qb.h - gb.h
      let max_abs := max (max (max |dx0| |dy0|) |dx1|) |dy1|
      let notes :=
        (if gb.w ≤ 1 / 1000000 ∨ gb.h ≤ 1 / 1000000 then ["geom bbox degenerate"] else [])
          ++ (if qb.w ≤ 1 / 1000000 ∨ qb.h ≤ 1 / 1000000 then ["qt bbox degenerate"] else [])
      let status :=
        if max_abs ≤ tol_abs_px then "PASS"
        else if max_abs ≤ warn_abs_px then "WARN"
        else "FAIL"
      { status := status
        tol_abs_px := tol_abs_px
        warn_abs_px := warn_abs_px
        qt_bbox_xyxy := some qb.as_list
        geom_bbox_xyxy := some gb.as_list
        max_abs_err_px := some max_abs
        diff := some ⟨dx0, dy0, dx1, dy1, dw, dh⟩
        notes := notes }

/-!
Embedding of rcs/geom/bbox_align.py.
-/

/-- Embeds the frozen dataclass _Transform of bbox_align.py. -/
structure Transform where
  kind : String
  scale_x : ℚ
  scale_y : ℚ
  tx : ℚ
  ty : ℚ
deriving DecidableEq

/-- Transform dict recorded in align info, without the kind label. -/
structure TransformData where
  scale_x : ℚ
  scale_y : ℚ
  tx : ℚ
  ty : ℚ
deriving DecidableEq

/-- Projection from a transform to its recorded dict. -/
def Transform.data (t : Transform) : TransformData :=
  ⟨t.scale_x, t.scale_y, t.tx, t.ty⟩

/-- Embeds _map_bbox: apply a transform to the two corner points. -/
def map_bbox (b : XYXY) (t : Transform) : XYXY :=
  (b.1 * t.scale_x + t.tx, b.2.1 * t.scale_y + t.ty,
   b.2.2.1 * t.scale_x + t.tx, b.2.2.2 * t.scale_y + t.ty)

/-- Threshold 1e-9 used by the transform constructors. -/
def eps9 : ℚ := 1 / 1000000000

/-- Embeds _keep_aspect_transform: uniform scale with centered letterbox. -/
def keep_aspect_transform (src_x src_y src_w src_h dst_w dst_h : ℚ) (kind : String) :
    Option Transform :=
  if src_w ≤ eps9 ∨ src_h ≤ eps9 ∨ dst_w ≤ eps9 ∨ dst_h ≤ eps9 then none
  else
    let s := min (dst_w / src_w) (dst_h / src_h)
    some ⟨kind, s, s, (dst_w - src_w * s) * 0.5 - src_x * s,
      (dst_h - src_h * s) * 0.5 - src_y * s⟩

/-- Embeds _stretch_transform: independent axis scales, no centering. -/
def stretch_transform (src_x src_y src_w src_h dst_w dst_h : ℚ) (kind : String) :
    Option Transform :=
  if src_w ≤ eps9 ∨ src_h ≤ eps9 ∨ dst_w ≤ eps9 ∨ dst_h ≤ eps9 then none
  else
    let sx := dst_w / src_w
    let sy := dst_h / src_h
    some ⟨kind, sx, sy, -src_x * sx, -src_y * sy⟩

/-- Candidate entry of the align info dict. -/
structure CandidateRecord where
  kind : String
  max_abs_err_px : Option ℚ
  status : String
  transform : TransformData
deriving DecidableEq

/-- Align info dict returned beside the aligned bbox. -/
structure AlignInfo where
  chosen : String
  candidates : List CandidateRecord
  note : Option String
  transform : Option TransformData
  render_px : Option Int
deriving DecidableEq

/-- Pair a transform option with the mapped geometry bbox, empty when the
transform constructor rejected the viewport. -/
def optCandidate (gb : XYXY) : Option Transform → List (Transform × XYXY)
  | none => []
  | some t => [(t, map_bbox gb t)]

/-- Candidate pairs for one (x,y,w,h) viewport descriptor: keep-aspect
first, then stretch, matching the generation order of the source. -/
def viewboxCandidates (gb : XYXY) (dst_w dst_h : ℚ) (kindKeep kindStretch : String) :
    Option XYXY → List (Transform × XYXY)
  | none => []
  | some (x, y, w, h) =>
    optCandidate gb (keep_aspect_transform x y w h dst_w dst_h kindKeep)
      ++ optCandidate gb (stretch_transform x y w h dst_w dst_h kindStretch)

/-- Candidate pairs for the (w,h) doc-size descriptor with implicit origin. -/
def sizeCandidates (gb : XYXY) (dst_w dst_h : ℚ) : Option (ℚ × ℚ) → List (Transform × XYXY)
  | none => []
  | some (w, h) =>
    optCandidate gb (keep_aspect_transform 0 0 w h dst_w dst_h "svge_docsize_keep")
      ++ optCandidate gb (stretch_transform 0 0 w h dst_w dst_h "svge_docsize_stretch")

/-- Identity transform of candidate 0. -/
def rawTransform : Transform := ⟨"raw", 1, 1, 0, 0⟩

/-- Full candidate list of align_geom_bbox_to_qt in generation order: raw,
then qtsvg viewBox keep and stretch, then svgelements viewBox keep and
stretch, then svgelements doc-size keep and stretch. -/
def candidate_list (gb : XYXY) (dst_w dst_h : ℚ)
    (qtsvg_viewbox svge_viewbox : Option XYXY) (svge_doc_size : Option (ℚ × ℚ)) :
    List (Transform × XYXY) :=
  [(rawTransform, gb)]
    ++ viewboxCandidates gb dst_w dst_h "qtsvg_viewbox_keep" "qtsvg_viewbox_stretch" qtsvg_viewbox
    ++ viewboxCandidates gb dst_w dst_h "svge_viewbox_keep" "svge_viewbox_stretch" svge_viewbox
    ++ sizeCandidates gb dst_w dst_h svge_doc_size

/-- Strict order on scores where a missing error counts as plus infinity,
modelling the float inf sentinel of the selection loop. -/
def optLt : Option ℚ → Option ℚ → Bool
  | some a, some b => decide (a < b)
  | some _, none => true
  | none, _ => false

/-- Score of one candidate: the max_abs_err_px of the comparator report for
its mapped bbox, none standing for plus infinity. -/
def candScore (qt : QtBBox) (tol warn : ℚ) (c : Transform × XYXY) : Option ℚ :=
  (compare_bboxes (some qt) (some c.2) tol warn).max_abs_err_px

/-- Candidate record appended to the info dict for one candidate. -/
def candRecord (qt : QtBBox) (tol warn : ℚ) (c : Transform × XYXY) : CandidateRecord :=
  let rep := compare_bboxes (some qt) (some c.2) tol warn
  ⟨c.1.kind, rep.max_abs_err_px, rep.status, c.1.data⟩

/-- Selection step of the loop over candidates: keep the incumbent unless
the new score is strictly smaller. -/
def bestStep (qt : QtBBox) (tol warn : ℚ) (b : Option ℚ × Transform × XYXY)
    (c : Transform × XYXY) : Option ℚ × Transform × XYXY :=
  if optLt (candScore qt tol warn c) b.1 then (candScore qt tol warn c, c.1, c.2) else b

/-- Embeds align_geom_bbox_to_qt of bbox_align.py.  The two coercion-failure
branches for non-sequence geometry input are absorbed by the Option typing
of the geometry argument. -/
def align_geom_bbox_to_qt (qt_alpha_bbox : Option QtBBox) (geom_bbox_xyxy : Option XYXY)
    (render_px : Int) (qtsvg_viewbox svge_viewbox : Option XYXY)
    (svge_doc_size : Option (ℚ × ℚ)) (tol_abs_px warn_abs_px : ℚ) :
    Option XYXY × AlignInfo :=
  match qt_alpha_bbox with
  | none =>
    (geom_bbox_xyxy,
      ⟨"raw", [], some "qt alpha bbox missing; cannot score candidates", none, none⟩)
  | some qt =>
    match geom_bbox_xyxy with
    | none => (none, ⟨"raw", [], some "geom bbox missing", none, none⟩)
    | some gb_xyxy =>
      let dst_w : ℚ := (render_px : ℚ)
      let dst_h : ℚ := (render_px : ℚ)
      let candidates := candidate_list gb_xyxy dst_w dst_h qtsvg_viewbox svge_viewbox
        svge_doc_size
      let records := candidates.map (candRecord qt tol_abs_px warn_abs_px)
      let best := candidates.foldl (bestStep qt tol_abs_px warn_abs_px)
        ((none : Option ℚ), rawTransform, gb_xyxy)
      (some best.2.2,
        ⟨best.2.1.kind, records, none, some best.2.1.data, some render_px⟩)

/-!
Embedding of rcs/geom/svg_viewport_normalize.py.

The length regex of the source is
anchored-whitespace, signed decimal with optional exponent, whitespace,
a run of letters or percent signs, whitespace, end.  It is embedded below
as a deterministic character-level lexer with the same language; the
greedy-with-backtracking behaviour of the optional exponent group is
reproduced by only consuming an exponent when sign and digits fully
match at that position.
-/

/-- Numeric value of a run of decimal digit characters. -/
def natOfDigits (l : List Char) : Nat :=
  l.foldl (fun a c => 10 * a + (c.toNat - 48)) 0

/-- Optional leading sign of a numeric literal. -/
def lexSign : List Char → Int × List Char
  | '+' :: rest => (1, rest)
  | '-' :: rest => (-1, rest)
  | l => (1, l)

/-- Numeric literal split into sign, integer digits, fraction digits with
their count, and exponent; the rational value is assembled separately so
that the character-level lexing stays free of rational arithmetic. -/
structure NumParts where
  sgn : Int
  ipart : Nat
  fpart : Nat
  flen : Nat
  ex : Int
deriving DecidableEq

/-- Exact rational value of a lexed numeric literal. -/
def lexedVal (p : NumParts) : ℚ :=
  (p.sgn : ℚ) * ((p.ipart : ℚ) + (p.fpart : ℚ) / (10 : ℚ) ^ p.flen) * (10 : ℚ) ^ p.ex

/-- Decimal mantissa: optional integer digits, optional dot, optional
fraction digits, with at least one digit in total. -/
def lexMantissaRaw (l : List Char) : Option ((Nat × Nat × Nat) × List Char) :=
  let p1 := l.span Char.isDigit
  match p1.2 with
  | '.' :: r2 =>
    let p2 := r2.span Char.isDigit
    if p1.1.isEmpty ∧ p2.1.isEmpty then none
    else some ((natOfDigits p1.1, natOfDigits p2.1, p2.1.length), p2.2)
  | _ =>
    if p1.1.isEmpty then none
    else some ((natOfDigits p1.1, 0, 0), p1.2)

/-- Exponent digits after the e marker and optional sign; on an incomplete
exponent the whole marker is left unconsumed, as regex backtracking does. -/
def lexExpDigits (sgn : Int) (orig r : List Char) : Int × List Char :=
  let p := r.span Char.isDigit
  if p.1.isEmpty then (0, orig) else (sgn * (natOfDigits p.1 : Int), p.2)

/-- Optional exponent part of a numeric literal. -/
def lexExponent (l : List Char) : Int × List Char :=
  match l with
  | 'e' :: '+' :: r2 => lexExpDigits 1 l r2
  | 'e' :: '-' :: r2 => lexExpDigits (-1) l r2
  | 'e' :: r2 => lexExpDigits 1 l r2
  | 'E' :: '+' :: r2 => lexExpDigits 1 l r2
  | 'E' :: '-' :: r2 => lexExpDigits (-1) l r2
  | 'E' :: r2 => lexExpDigits 1 l r2
  | _ => (0, l)

/-- Signed decimal number with optional exponent, returning its parts and
the unconsumed input. -/
def pyNumberRaw (l : List Char) : Option (NumParts × List Char) :=
  let s := lexSign l
  match lexMantissaRaw s.2 with
  | none => none
  | some (m, r2) =>
    let e := lexExponent r2
    some (⟨s.1, m.1, m.2.1, m.2.2, e.1⟩, e.2)

/-- Embeds the anchored length regex _len_re at the level of parts: number,
optional whitespace, a run of letters or percent signs as the unit group,
trailing whitespace. -/
def lenMatchRaw (l : List Char) : Option (NumParts × String) :=
  let r0 := l.dropWhile pyIsSpace
  match pyNumberRaw r0 with
  | none => none
  | some (p, r1) =>
    let r2 := r1.dropWhile pyIsSpace
    let u := r2.span (fun c => c.isAlpha || c = '%')
    if (u.2.dropWhile pyIsSpace).isEmpty then some (p, ⟨u.1⟩) else none

/-- Embeds the anchored length regex _len_re: the matched numeric value and
the unit group. -/
def lenMatch (l : List Char) : Option (ℚ × String) :=
  (lenMatchRaw l).map (fun p => (lexedVal p.1, p.2))

/-- Unit tags of the _Unit literal type of the source; the constructor for
the in unit is named inch because in is a reserved word. -/
inductive UnitK where
  | px
  | mm
  | cm
  | inch
  | pt
  | pc
  | percent
  | unknown
deriving DecidableEq

/-- Unit classification of the lower-cased unit group, following the
if-chain of _parse_length: empty means px (unitless SVG lengths are CSS
px), percent is indeterminate, the six listed units map to themselves, and
any other suffix is unknown. -/
def unitOfString (ul : String) : UnitK :=
  if ul = "" then .px
  else if ul = "%" then .percent
  else if ul = "px" then .px
  else if ul = "mm" then .mm
  else if ul = "cm" then .cm
  else if ul = "in" then .inch
  else if ul = "pt" then .pt
  else if ul = "pc" then .pc
  else .unknown

/-- Embeds _parse_length of svg_viewport_normalize.py. -/
def _parse_length (s : Option String) : Option ℚ × UnitK :=
  match s with
  | none => (none, .unknown)
  | some str =>
    if str.data.isEmpty then (none, .unknown)
    else
      match lenMatch str.data with
      | none => (none, .unknown)
      | some (v, u) => (some v, unitOfString (asciiLower u))

/-- Embeds _to_inches of svg_viewport_normalize.py. -/
def _to_inches (v : ℚ) (u : UnitK) : Option ℚ :=
  match u with
  | .inch => some v
  | .cm => some (v / 2.54)
  | .mm => some (v / 25.4)
  | .pt => some (v / 72)
  | .pc => some (v / 6)
  | _ => none

/-- Separator class of the viewBox split regex: whitespace or comma. -/
def isSepChar (c : Char) : Bool := pyIsSpace c || c = ','

/-- Split into chunks at separator characters, keeping empty chunks. -/
def splitChunks : List Char → List (List Char)
  | [] => [[]]
  | c :: rest =>
    let r := splitChunks rest
    if isSepChar c then [] :: r
    else
      match r with
      | t :: ts => (c :: t) :: ts
      | [] => [[c]]

/-- Model of the Python float constructor on separator-free text: optional
whitespace and sign, decimal mantissa, optional exponent, trailing
whitespace.  The inf and nan spellings and digit underscores accepted by
Python lie outside the rational model. -/
def pyFloatRaw (l : List Char) : Option NumParts :=
  let r0 := l.dropWhile pyIsSpace
  match pyNumberRaw r0 with
  | none => none
  | some (p, r1) =>
    if (r1.dropWhile pyIsSpace).isEmpty then some p else none

/-- Rational value of a Python float literal. -/
def pyFloat (l : List Char) : Option ℚ := (pyFloatRaw l).map lexedVal

/-- Embeds _parse_viewbox of svg_viewport_normalize.py.  Splitting on runs
of whitespace and commas after stripping is modelled by chunking and
dropping empty chunks, which agrees with re.split on stripped input. -/
def _parse_viewbox (s : Option String) : Option XYXY :=
  match s with
  | none => none
  | some str =>
    if str.data.isEmpty then none
    else
      let stripped := ((str.data.dropWhile pyIsSpace).reverse.dropWhile pyIsSpace).reverse
      let parts := (splitChunks stripped).filter (fun t => !t.isEmpty)
      match parts with
      | [a, b, c, d] =>
        match pyFloat a, pyFloat b, pyFloat c, pyFloat d with
        | some x, some y, some w, some h =>
          if w ≤ 0 ∨ h ≤ 0 then none else some (x, y, w, h)
        | _, _, _, _ => none
      | _ => none

/-- CSS pixels per inch. -/
def CSS_PPI : ℚ := 96

/-- Raw diagnostic dict of the normalizer; the path and root_tag keys of
the source carry no information used by any claim and are omitted. -/
structure RawInfo where
  error : Option String
  width : Option String
  height : Option String
  viewBox : Option String
deriving DecidableEq

/-- Embeds the frozen dataclass NormalizedViewport. -/
structure NormalizedViewport where
  doc_w : ℚ
  doc_h : ℚ
  viewbox : Option XYXY
  ppi : ℚ
  units : UnitK
  raw : RawInfo
deriving DecidableEq

/-- Input boundary of the normalizer: reading the file and parsing the XML
are performed by the standard library in the source; the unreadable and
malformed constructors model the two failure branches, and the doc
constructor carries the width, height and viewBox attributes of the parsed
root element. -/
inductive SvgSource where
  | unreadable (msg : String)
  | malformed (msg : String)
  | doc (width height viewBox : Option String)

/-- Inch length of one parsed axis, modelling the conditional expression
computing w_in and h_in in the source: None when the attribute did not
parse, otherwise the inch conversion of its value and unit. -/
def axisInches (p : Option ℚ × UnitK) : Option ℚ :=
  match p.1 with
  | some v => _to_inches v p.2
  | none => none

/-- Per-axis pixel conversion of the doc-size branch of the source: px and
unknown units pass through, physical units convert through inches at
CSS_PPI, and a unit without an inch conversion passes through. -/
def docLenPx (v : ℚ) (u : UnitK) : ℚ :=
  if u = .px ∨ u = .unknown then v
  else
    match _to_inches v u with
    | none => v
    | some i => i * CSS_PPI

/-- ViewBox fallback of the doc-size resolution: viewBox extents when
present, zero otherwise. -/
def vbSizeFallback : Option XYXY → ℚ × ℚ
  | some v => (v.2.2.1, v.2.2.2)
  | none => (0, 0)

/-- Embeds normalize_svg_viewport of svg_viewport_normalize.py. -/
def normalize_svg_viewport : SvgSource → NormalizedViewport
  | .unreadable e => ⟨0, 0, none, CSS_PPI, .unknown, ⟨some e, none, none, none⟩⟩
  | .malformed e => ⟨0, 0, none, CSS_PPI, .unknown, ⟨some e, none, none, none⟩⟩
  | .doc w_raw h_raw vb_raw =>
    let pw := _parse_length w_raw
    let ph := _parse_length h_raw
    let units := if pw.2 ≠ .unknown then pw.2 else ph.2
    let vb := _parse_viewbox vb_raw
    let dims : ℚ × ℚ :=
      match pw.1, ph.1 with
      | some wv, some hv =>
        if pw.2 = .percent ∨ ph.2 = .percent then vbSizeFallback vb
        else (docLenPx wv pw.2, docLenPx hv ph.2)
      | _, _ => vbSizeFallback vb
    let ppi : ℚ :=
      match vb with
      | none => CSS_PPI
      | some v =>
        let w_in := axisInches pw
        let h_in := axisInches ph
        let ppis : List ℚ :=
          (match w_in with
            | some wi => if 0 < wi then [v.2.2.1 / wi] else []
            | none => [])
          ++ (match h_in with
            | some hi2 => if 0 < hi2 then [v.2.2.2 / hi2] else []
            | none => [])
        if ppis.isEmpty then CSS_PPI else ppis.sum / (ppis.length : ℚ)
    ⟨dims.1, dims.2, vb, ppi, units, ⟨none, w_raw, h_raw, vb_raw⟩⟩

/-!
Spec-side definitions written from the words of the specification, to be
compared with the embedded code.
-/

/-- Spec-side per-unit conversion to px at 96 px per inch, following the
conversion table of the spec (mm/25.4, cm/2.54, pt/72, pc/6, each times
96); px and unitless are pixels as-is, and an unknown unit is used as
pixels as-is. -/
def specLenToPx (v : ℚ) (u : UnitK) : ℚ :=
  match u with
  | .mm => v / 25.4 * 96
  | .cm => v / 2.54 * 96
  | .pt => v / 72 * 96
  | .pc => v / 6 * 96
  | .inch => v * 96
  | _ => v

/-- Spec-side doc-size resolution priority: both width and height parsed
and non-percent gives the direct conversion; otherwise a present viewBox
gives its extents; otherwise zero. -/
def docSizeSpec (pw ph : Option ℚ × UnitK) (vb : Option XYXY) : ℚ × ℚ :=
  match pw.1, ph.1 with
  | some wv, some hv =>
    if pw.2 ≠ .percent ∧ ph.2 ≠ .percent then (specLenToPx wv pw.2, specLenToPx hv ph.2)
    else vbSizeFallback vb
  | _, _ => vbSizeFallback vb

/-- Physical units in the sense of the spec ppi estimation. -/
def isPhysicalUnit : UnitK → Bool
  | .mm => true
  | .cm => true
  | .inch => true
  | .pt => true
  | .pc => true
  | _ => false

/-- Spec-side per-axis ppi estimate list: an estimate is available when the
attribute parsed, carries a physical unit, and its length in inches is
positive; the estimate is viewbox extent over length in inches. -/
def ppiEstimates (p : Option ℚ × UnitK) (extent : ℚ) : List ℚ :=
  match axisInches p with
  | none => []
  | some i => if 0 < i then [extent / i] else []

/-!
Embedding of rcs/geom/bbox_report.py.

Items are report dicts; the fields read by the module are svg, path, status
and max_abs_err_px.  The _safe_float coercion is absorbed by typing the
error field as Option of a rational.  Python list.sort with a key and
reverse=True is a stable descending sort; the stable sort for a total
preorder is unique, so it is modelled by stable insertion sort below.
-/

/-- Report item with the fields read by bbox_report.py. -/
structure Item where
  svg : Option String
  path : Option String
  status : Option String
  max_abs_err_px : Option ℚ
deriving DecidableEq

/-- Severity table of bbox_report.py. -/
def STATUS_SEVERITY : List (String × Int) :=
  [("PASS", 0), ("WARN", 1), ("FAIL", 2), ("INVISIBLE", 3), ("NO_GEOM", -1)]

/-- Embeds status_severity: normalized lookup with default 2. -/
def status_severity (status : Option String) : Int :=
  let s := asciiUpper (asciiStrip (status.getD ""))
  match STATUS_SEVERITY.lookup s with
  | some v => v
  | none => 2

/-- Actionable status set of bbox_report.py. -/
def ACTIONABLE_STATUSES : List String := ["WARN", "FAIL", "INVISIBLE"]

/-- Embeds is_actionable. -/
def is_actionable (status : Option String) (include_no_geom : Bool) : Bool :=
  let s := asciiUpper (asciiStrip (status.getD ""))
  if include_no_geom && (s == "NO_GEOM") then true
  else ACTIONABLE_STATUSES.contains s

/-- Sort key of rank_items: severity, then error with the sentinel 1e9 for
an INVISIBLE item without numeric error and -1.0 otherwise. -/
def rank_key (it : Item) : Int × ℚ :=
  let st := asciiUpper (asciiStrip (it.status.getD ""))
  let sev := status_severity it.status
  let err_v : ℚ :=
    match it.max_abs_err_px with
    | none => if st == "INVISIBLE" then 1000000000 else -1
    | some e => e
  (sev, err_v)

/-- Lexicographic order on sort keys, as Python compares tuples. -/
def keyLe (a b : Int × ℚ) : Bool :=
  decide (a.1 < b.1) || (decide (a.1 = b.1) && decide (a.2 ≤ b.2))

/-- Stable insertion of one element: the new element goes after every
incumbent that may stay before it. -/
def insertStable {α : Type} (le : α → α → Bool) (a : α) : List α → List α
  | [] => [a]
  | b :: bs => if le b a then b :: insertStable le a bs else a :: b :: bs

/-- Stable insertion sort, processing the input left to right. -/
def sortStable {α : Type} (le : α → α → Bool) (l : List α) : List α :=
  l.foldl (fun acc a => insertStable le a acc) []

/-- Embeds rank_items of bbox_report.py.  The dict copy per item is the
identity here, and the slice by a nonnegative limit is take. -/
def rank_items (items : List Item) (include_no_geom : Bool) (limit : Option Nat) :
    List Item :=
  let out := items.filter (fun it => is_actionable it.status include_no_geom)
  let sorted := sortStable (fun a b => keyLe (rank_key b) (rank_key a)) out
  match limit with
  | none => sorted
  | some n => sorted.take n

/-- Python or-chain on optional strings: empty and missing are falsy. -/
def orStr (x : Option String) (y : String) : String :=
  match x with
  | some s => if s = "" then y else s
  | none => y

/-- Dict lookup on an association list. -/
def dictGet {α : Type} (k : String) : List (String × α) → Option α
  | [] => none
  | p :: ps => if p.1 = k then some p.2 else dictGet k ps

/-- Dict insertion: overwrite in place on an existing key, append on a new
key, matching Python dict insertion-order semantics. -/
def dictInsert {α : Type} (k : String) (v : α) (m : List (String × α)) :
    List (String × α) :=
  if (dictGet k m).isSome then m.map (fun p => if p.1 = k then (k, v) else p)
  else m ++ [(k, v)]

/-- Matching key of one item: svg, else path, else empty, through the
caller-supplied path normalization.  The normcase and normpath calls of
norm_svg_key depend on the host platform and are abstracted as the
normKey parameter. -/
def itemKey (normKey : String → String) (it : Item) : String :=
  normKey (orStr it.svg (orStr it.path ""))

/-- Embeds the to_map helper of compare_reports. -/
def to_map (normKey : String → String) (items : List Item) : List (String × Item) :=
  items.foldl (fun m it =>
    let k := itemKey normKey it
    if k = "" then m else dictInsert k it m) []

/-- Regression entry dict of compare_reports. -/
structure RegEntry where
  svg : String
  baseline_status : String
  current_status : String
  baseline_max_abs_err_px : Option ℚ
  current_max_abs_err_px : Option ℚ
  delta_max_abs_err_px : Option ℚ
deriving DecidableEq

/-- Entry built for one matched pair in compare_reports. -/
def mkEntry (k : String) (b c : Item) : RegEntry :=
  let b_status := asciiUpper (b.status.getD "")
  let c_status := asciiUpper (c.status.getD "")
  let b_err := b.max_abs_err_px
  let c_err := c.max_abs_err_px
  { svg := orStr c.svg (orStr b.svg k)
    baseline_status := b_status
    current_status := c_status
    baseline_max_abs_err_px := b_err
    current_max_abs_err_px := c_err
    delta_max_abs_err_px :=
      match b_err, c_err with
      | some x, some y => some (y - x)
      | _, _ => none }

/-- Loop body of compare_reports over one baseline entry; the accumulator
carries regressions, improvements, the unchanged count and missing keys. -/
def pairStep (cmap : List (String × Item)) (err_eps : ℚ)
    (acc : List RegEntry × List RegEntry × Nat × List String)
    (kb : String × Item) : List RegEntry × List RegEntry × Nat × List String :=
  match dictGet kb.1 cmap with
  | none => (acc.1, acc.2.1, acc.2.2.1, acc.2.2.2 ++ [kb.1])
  | some c =>
    let e := mkEntry kb.1 kb.2 c
    if e.baseline_status = "NO_GEOM" ∨ e.current_status = "NO_GEOM" then
      (acc.1, acc.2.1, acc.2.2.1 + 1, acc.2.2.2)
    else
      if status_severity (some e.baseline_status) < status_severity (some e.current_status)
      then (acc.1 ++ [e], acc.2.1, acc.2.2.1, acc.2.2.2)
      else if status_severity (some e.current_status)
          < status_severity (some e.baseline_status)
      then (acc.1, acc.2.1 ++ [e], acc.2.2.1, acc.2.2.2)
      else
        match e.delta_max_abs_err_px with
        | some d =>
          if err_eps < d then (acc.1 ++ [e], acc.2.1, acc.2.2.1, acc.2.2.2)
          else if d < -err_eps then (acc.1, acc.2.1 ++ [e], acc.2.2.1, acc.2.2.2)
          else (acc.1, acc.2.1, acc.2.2.1 + 1, acc.2.2.2)
        | none => (acc.1, acc.2.1, acc.2.2.1 + 1, acc.2.2.2)

/-- Ranking key for the regression list: current severity, then the error
delta with the sentinel 1e9 for INVISIBLE without delta and 0.0 otherwise. -/
def reg_key (e : RegEntry) : Int × ℚ :=
  let sev := status_severity (some e.current_status)
  let de : ℚ :=
    match e.delta_max_abs_err_px with
    | none => if asciiUpper e.current_status == "INVISIBLE" then 1000000000 else 0
    | some d => d
  (sev, de)

/-- Summary dict of compare_reports; the wall-clock timestamp of the source
is outside the model. -/
structure RegressionSummary where
  counts_baseline : Nat
  counts_current : Nat
  counts_regressions : Nat
  counts_improvements : Nat
  counts_unchanged : Nat
  counts_new : Nat
  counts_missing : Nat
  regressions : List RegEntry
  improvements : List RegEntry
  missing : List String
  newKeys : List String
deriving DecidableEq

/-- Embeds compare_reports of bbox_report.py. -/
def compare_reports (normKey : String → String) (baseline_items current_items : List Item)
    (err_eps : ℚ) : RegressionSummary :=
  let bmap := to_map normKey baseline_items
  let cmap := to_map normKey current_items
  let acc := bmap.foldl (pairStep cmap err_eps) ([], [], 0, [])
  let regressions := sortStable (fun a b => keyLe (reg_key b) (reg_key a)) acc.1
  let newKeys := (cmap.filter (fun kc => (dictGet kc.1 bmap).isNone)).map Prod.fst
  ⟨bmap.length, cmap.length, regressions.length, acc.2.1.length, acc.2.2.1,
    newKeys.length, acc.2.2.2.length, regressions, acc.2.1, acc.2.2.2, newKeys⟩

/-!
Spec-side classification conditions for the regression claims, written from
the words of the specification; they are functions of the entry alone.
-/

/-- Spec-side regression condition for one matched pair: neither side
NO_GEOM, and current severity above baseline severity, or equal severities
with an error delta above errEps. -/
def regCondE (e : RegEntry) (err_eps : ℚ) : Prop :=
  e.baseline_status ≠ "NO_GEOM" ∧ e.current_status ≠ "NO_GEOM" ∧
    (status_severity (some e.baseline_status) < status_severity (some e.current_status) ∨
      (status_severity (some e.baseline_status) = status_severity (some e.current_status) ∧
        ∃ d, e.delta_max_abs_err_px = some d ∧ err_eps < d))

/-- Spec-side improvement condition, the symmetric inverse. -/
def impCondE (e : RegEntry) (err_eps : ℚ) : Prop :=
  e.baseline_status ≠ "NO_GEOM" ∧ e.current_status ≠ "NO_GEOM" ∧
    (status_severity (some e.current_status) < status_severity (some e.baseline_status) ∨
      (status_severity (some e.baseline_status) = status_severity (some e.current_status) ∧
        ∃ d, e.delta_max_abs_err_px = some d ∧ d < -err_eps))

/-!
Per-entry views of the compare_reports loop, used to characterise the fold:
each extracts, for one baseline entry, the contribution the loop body makes
to one of the four accumulators.
-/

/-- Regression entry contributed by one baseline entry, if any. -/
def regPick (cmap : List (String × Item)) (err_eps : ℚ) (kb : String × Item) :
    Option RegEntry :=
  match dictGet kb.1 cmap with
  | none => none
  | some c =>
    let e := mkEntry kb.1 kb.2 c
    if e.baseline_status = "NO_GEOM" ∨ e.current_status = "NO_GEOM" then none
    else if status_severity (some e.baseline_status) < status_severity (some e.current_status)
    then some e
    else if status_severity (some e.current_status) < status_severity (some e.baseline_status)
    then none
    else
      match e.delta_max_abs_err_px with
      | some d => if err_eps < d then some e else none
      | none => none

/-- Improvement entry contributed by one baseline entry, if any. -/
def impPick (cmap : List (String × Item)) (err_eps : ℚ) (kb : String × Item) :
    Option RegEntry :=
  match dictGet kb.1 cmap with
  | none => none
  | some c =>
    let e := mkEntry kb.1 kb.2 c
    if e.baseline_status = "NO_GEOM" ∨ e.current_status = "NO_GEOM" then none
    else if status_severity (some e.baseline_status) < status_severity (some e.current_status)
    then none
    else if status_severity (some e.current_status) < status_severity (some e.baseline_status)
    then some e
    else
      match e.delta_max_abs_err_px with
      | some d => if err_eps < d then none else if d < -err_eps then some e else none
      | none => none

/-- Whether one baseline entry is counted as unchanged. -/
def unchPick (cmap : List (String × Item)) (err_eps : ℚ) (kb : String × Item) : Bool :=
  match dictGet kb.1 cmap with
  | none => false
  | some c =>
    let e := mkEntry kb.1 kb.2 c
    if e.baseline_status = "NO_GEOM" ∨ e.current_status = "NO_GEOM" then true
    else if status_severity (some e.baseline_status) < status_severity (some e.current_status)
    then false
    else if status_severity (some e.current_status) < status_severity (some e.baseline_status)
    then false
    else
      match e.delta_max_abs_err_px with
      | some d => if err_eps < d then false else if d < -err_eps then false else true
      | none => true

/-- Missing key contributed by one baseline entry, if any. -/
def missPick (cmap : List (String × Item)) (kb : String × Item) : Option String :=
  match dictGet kb.1 cmap with
  | none => some kb.1
  | some _ => none

end RCS

namespace RCS

/-- C1: for an observed bbox (x,y,w,h) with w greater than 0 and h greater
than 0 and a geometry bbox (g0,g1,g2,g3), compare_bboxes converts the
observed bbox to the corner pair (x, y, x+w, y+h), computes the corner
deltas observed minus geometry, reports max_abs_err_px as the maximum of
their absolute values, and assigns PASS when the error is at most
tol_abs_px, otherwise WARN when it is at most warn_abs_px, otherwise FAIL;
the tol test is evaluated before the warn test for every pair of
thresholds. -/
theorem compare_bboxes_thresholds (x y w h : Int) (hw : 0 < w) (hh : 0 < h)
    (g0 g1 g2 g3 tol warn : ℚ) :
    (compare_bboxes (some (x, y, w, h)) (some (g0, g1, g2, g3)) tol warn).qt_bbox_xyxy
        = some [(x : ℚ), (y : ℚ), (x : ℚ) + (w : ℚ), (y : ℚ) + (h : ℚ)] ∧
    (compare_bboxes (some (x, y, w, h)) (some (g0, g1, g2, g3)) tol warn).max_abs_err_px
        = some (max (max (max |(x : ℚ) - g0| |(y : ℚ) - g1|)
            |(x : ℚ) + (w : ℚ) - g2|) |(y : ℚ) + (h : ℚ) - g3|) ∧
    (compare_bboxes (some (x, y, w, h)) (some (g0, g1, g2, g3)) tol warn).status
        = (if max (max (max |(x : ℚ) - g0| |(y : ℚ) - g1|)
              |(x : ℚ) + (w : ℚ) - g2|) |(y : ℚ) + (h : ℚ) - g3| ≤ tol then "PASS"
           else if max (max (max |(x : ℚ) - g0| |(y : ℚ) - g1|)
              |(x : ℚ) + (w : ℚ) - g2|) |(y : ℚ) + (h : ℚ) - g3| ≤ warn then "WARN"
           else "FAIL") := by
  have hcond : ¬(w ≤ 0 ∨ h ≤ 0) := by
    push_neg
    exact ⟨hw, hh⟩
  simp only [compare_bboxes, bbox_from_alpha_bbox, bbox_from_xyxy_tuple, hcond, if_false,
    if_neg hcond]
  refine ⟨?_, ?_, ?_⟩ <;> push_cast <;> rfl

/-- Witness for C1 at the concrete input of the spec example: observed
(10,10,50,50) against geometry (10,10,60,60) with both thresholds zero
passes with zero error. -/
theorem compare_bboxes_thresholds_witness :
    (0 : Int) < 50 ∧
    (compare_bboxes (some (10, 10, 50, 50)) (some (10, 10, 60, 60)) 0 0).status = "PASS" ∧
    (compare_bboxes (some (10, 10, 50, 50)) (some (10, 10, 60, 60)) 0 0).max_abs_err_px
      = some 0 := by
  have h := compare_bboxes_thresholds 10 10 50 50 (by norm_num) (by norm_num) 10 10 60 60 0 0
  refine ⟨by norm_num, ?_, ?_⟩
  · rw [h.2.2]
    norm_num
  · rw [h.2.1]
    norm_num

/-!
Order toolkit for the inf-extended score order used by the aligner.
-/

/-- Reflexive failure of the strict score order. -/
theorem optLt_irrefl (a : Option ℚ) : optLt a a = false := by
  cases a <;> simp [optLt]

/-- Transitivity of the strict score order. -/
theorem optLt_trans {a b c : Option ℚ} (h1 : optLt a b = true) (h2 : optLt b c = true) :
    optLt a c = true := by
  cases a <;> cases b <;> cases c <;> simp [optLt] at * <;> linarith

/-- From b not below a and a below c conclude b below c. -/
theorem optLt_of_not_of_lt {a b c : Option ℚ} (h1 : optLt a b = false)
    (h2 : optLt a c = true) : optLt b c = true := by
  cases a <;> cases b <;> cases c <;> simp [optLt] at * <;> linarith

/-- From a below b and b at most c conclude a below c. -/
theorem optLt_of_lt_of_not {a b c : Option ℚ} (h1 : optLt a b = true)
    (h2 : optLt c b = false) : optLt a c = true := by
  cases a <;> cases b <;> cases c <;> simp [optLt] at * <;> linarith

/-- The strict-improvement fold over a nonempty list selects the first
element attaining the minimal score: the result is an element of the list,
no element scores strictly below it, and it scores strictly below every
earlier element. -/
theorem foldl_first_argmin {α : Type} (f : α → Option ℚ) :
    ∀ (l : List α) (b : α),
    ∃ i : Nat, ∃ hi : i < (b :: l).length,
      l.foldl (fun acc c => if optLt (f c) acc.1 then (f c, c) else acc) (f b, b)
        = (f ((b :: l).get ⟨i, hi⟩), (b :: l).get ⟨i, hi⟩) ∧
      (∀ j, ∀ hj : j < (b :: l).length,
        optLt (f ((b :: l).get ⟨j, hj⟩)) (f ((b :: l).get ⟨i, hi⟩)) = false) ∧
      (∀ j, ∀ hj : j < (b :: l).length, j < i →
        optLt (f ((b :: l).get ⟨i, hi⟩)) (f ((b :: l).get ⟨j, hj⟩)) = true) := by
  intro l
  induction l with
  | nil =>
    intro b
    refine ⟨0, by simp, by simp, ?_, ?_⟩
    · intro j hj
      have hj0 : j = 0 := by
        simp at hj
        omega
      subst hj0
      exact optLt_irrefl (f b)
    · intro j hj hlt
      omega
  | cons a as ih =>
    intro b
    rw [List.foldl_cons]
    by_cases h : optLt (f a) (f b) = true
    · have hstep : (if optLt (f a) (f b) then (f a, a) else (f b, b)) = (f a, a) := by
        rw [h]
        simp
      rw [hstep]
      obtain ⟨i', hi', heq, h2, h3⟩ := ih a
      refine ⟨i' + 1, by simpa using Nat.succ_lt_succ hi', ?_, ?_, ?_⟩
      · exact heq
      · intro j hj
        match j, hj with
        | 0, hj =>
          show optLt (f b) (f ((a :: as).get ⟨i', hi'⟩)) = false
          cases hq : optLt (f b) (f ((a :: as).get ⟨i', hi'⟩)) with
          | false => rfl
          | true =>
            have h20 : optLt (f a) (f ((a :: as).get ⟨i', hi'⟩)) = false :=
              h2 0 (by simp)
            have hcontra := optLt_trans h hq
            rw [h20] at hcontra
            simp at hcontra
        | j'' + 1, hj =>
          show optLt (f ((a :: as).get ⟨j'', Nat.lt_of_succ_lt_succ hj⟩))
              (f ((a :: as).get ⟨i', hi'⟩)) = false
          exact h2 j'' (Nat.lt_of_succ_lt_succ hj)
      · intro j hj hlt
        match j, hj with
        | 0, hj =>
          show optLt (f ((a :: as).get ⟨i', hi'⟩)) (f b) = true
          exact optLt_of_not_of_lt (h2 0 (by simp)) h
        | j'' + 1, hj =>
          show optLt (f ((a :: as).get ⟨i', hi'⟩))
              (f ((a :: as).get ⟨j'', Nat.lt_of_succ_lt_succ hj⟩)) = true
          exact h3 j'' (Nat.lt_of_succ_lt_succ hj) (by omega)
    · have hb : optLt (f a) (f b) = false := by
        simpa using h
      have hstep : (if optLt (f a) (f b) then (f a, a) else (f b, b)) = (f b, b) := by
        rw [hb]
        simp
      rw [hstep]
      obtain ⟨i', hi', heq, h2, h3⟩ := ih b
      match i', hi', heq, h2, h3 with
      | 0, hi', heq, h2, h3 =>
        refine ⟨0, by simp, ?_, ?_, ?_⟩
        · exact heq
        · intro j hj
          match j, hj with
          | 0, hj => exact optLt_irrefl (f b)
          | 1, hj =>
            show optLt (f a) (f b) = false
            exact hb
          | j'' + 2, hj =>
            show optLt (f ((b :: as).get ⟨j'' + 1, Nat.lt_of_succ_lt_succ hj⟩)) (f b) = false
            exact h2 (j'' + 1) (Nat.lt_of_succ_lt_succ hj)
        · intro j hj hlt
          omega
      | k + 1, hi', heq, h2, h3 =>
        refine ⟨k + 2, by simpa using Nat.succ_lt_succ hi', ?_, ?_, ?_⟩
        · exact heq
        · intro j hj
          match j, hj with
          | 0, hj =>
            show optLt (f b) (f ((b :: as).get ⟨k + 1, hi'⟩)) = false
            exact h2 0 (by simp)
          | 1, hj =>
            show optLt (f a) (f ((b :: as).get ⟨k + 1, hi'⟩)) = false
            cases hq : optLt (f a) (f ((b :: as).get ⟨k + 1, hi'⟩)) with
            | false => rfl
            | true =>
              have h30 : optLt (f ((b :: as).get ⟨k + 1, hi'⟩)) (f b) = true :=
                h3 0 (by simp) (by omega)
              have hcontra := optLt_trans hq h30
              rw [hcontra] at hb
              simp at hb
          | j'' + 2, hj =>
            show optLt (f ((b :: as).get ⟨j'' + 1, Nat.lt_of_succ_lt_succ hj⟩))
                (f ((b :: as).get ⟨k + 1, hi'⟩)) = false
            exact h2 (j'' + 1) (Nat.lt_of_succ_lt_succ hj)
        · intro j hj hlt
          match j, hj with
          | 0, hj =>
            show optLt (f ((b :: as).get ⟨k + 1, hi'⟩)) (f b) = true
            exact h3 0 (by simp) (by omega)
          | 1, hj =>
            show optLt (f ((b :: as).get ⟨k + 1, hi'⟩)) (f a) = true
            exact optLt_of_lt_of_not (h3 0 (by simp) (by omega)) hb
          | j'' + 2, hj =>
            show optLt (f ((b :: as).get ⟨k + 1, hi'⟩))
                (f ((b :: as).get ⟨j'' + 1, Nat.lt_of_succ_lt_succ hj⟩)) = true
            exact h3 (j'' + 1) (Nat.lt_of_succ_lt_succ hj) (by omega)

/-- Feeding the first candidate through the selection step from the inf
sentinel start yields exactly the score-tagged first candidate, matching
the initialisation of the loop in the source. -/
theorem foldl_bestStep_init (qt : QtBBox) (tol warn : ℚ) (c0 : Transform × XYXY)
    (l : List (Transform × XYXY)) :
    List.foldl (bestStep qt tol warn) ((none : Option ℚ), c0.1, c0.2) (c0 :: l)
      = List.foldl (bestStep qt tol warn) (candScore qt tol warn c0, c0.1, c0.2) l := by
  rw [List.foldl_cons]
  congr 1
  unfold bestStep
  cases h : candScore qt tol warn c0 with
  | none => simp [optLt, h]
  | some v => simp [optLt, h]

/-- C2: when both the observed and the geometry bbox are present, align
returns the mapped bbox, chosen kind and transform of the candidate at the
first index attaining the minimal comparator score, where a missing
max_abs_err_px scores as plus infinity; every candidate is recorded in
generation order in the info dict, so the selection is stable and
deterministic. -/
theorem align_selects_first_min (qt : QtBBox) (gb : XYXY) (render_px : Int)
    (vbq vbs : Option XYXY) (sz : Option (ℚ × ℚ)) (tol warn : ℚ) :
    ∃ i : Nat, ∃ hi : i <
        (candidate_list gb (render_px : ℚ) (render_px : ℚ) vbq vbs sz).length,
      (align_geom_bbox_to_qt (some qt) (some gb) render_px vbq vbs sz tol warn).1
          = some (((candidate_list gb (render_px : ℚ) (render_px : ℚ) vbq vbs sz).get
              ⟨i, hi⟩).2) ∧
      (align_geom_bbox_to_qt (some qt) (some gb) render_px vbq vbs sz tol warn).2.chosen
          = ((candidate_list gb (render_px : ℚ) (render_px : ℚ) vbq vbs sz).get
              ⟨i, hi⟩).1.kind ∧
      (align_geom_bbox_to_qt (some qt) (some gb) render_px vbq vbs sz tol warn).2.transform
          = some (((candidate_list gb (render_px : ℚ) (render_px : ℚ) vbq vbs sz).get
              ⟨i, hi⟩).1.data) ∧
      (align_geom_bbox_to_qt (some qt) (some gb) render_px vbq vbs sz tol warn).2.candidates
          = (candidate_list gb (render_px : ℚ) (render_px : ℚ) vbq vbs sz).map
              (candRecord qt tol warn) ∧
      (∀ j, ∀ hj : j <
          (candidate_list gb (render_px : ℚ) (render_px : ℚ) vbq vbs sz).length,
        optLt (candScore qt tol warn
            ((candidate_list gb (render_px : ℚ) (render_px : ℚ) vbq vbs sz).get ⟨j, hj⟩))
          (candScore qt tol warn
            ((candidate_list gb (render_px : ℚ) (render_px : ℚ) vbq vbs sz).get ⟨i, hi⟩))
          = false) ∧
      (∀ j, ∀ hj : j <
          (candidate_list gb (render_px : ℚ) (render_px : ℚ) vbq vbs sz).length, j < i →
        optLt (candScore qt tol warn
            ((candidate_list gb (render_px : ℚ) (render_px : ℚ) vbq vbs sz).get ⟨i, hi⟩))
          (candScore qt tol warn
            ((candidate_list gb (render_px : ℚ) (render_px : ℚ) vbq vbs sz).get ⟨j, hj⟩))
          = true) := by
  obtain ⟨i, hi, heq, h2, h3⟩ := foldl_first_argmin (candScore qt tol warn)
    (viewboxCandidates gb (render_px : ℚ) (render_px : ℚ) "qtsvg_viewbox_keep"
        "qtsvg_viewbox_stretch" vbq
      ++ viewboxCandidates gb (render_px : ℚ) (render_px : ℚ) "svge_viewbox_keep"
        "svge_viewbox_stretch" vbs
      ++ sizeCandidates gb (render_px : ℚ) (render_px : ℚ) sz) (rawTransform, gb)
  have hfold : (candidate_list gb (render_px : ℚ) (render_px : ℚ) vbq vbs sz).foldl
      (bestStep qt tol warn) ((none : Option ℚ), rawTransform, gb)
      = (candScore qt tol warn
          ((candidate_list gb (render_px : ℚ) (render_px : ℚ) vbq vbs sz).get ⟨i, hi⟩),
        (candidate_list gb (render_px : ℚ) (render_px : ℚ) vbq vbs sz).get ⟨i, hi⟩) := by
    have hinit := foldl_bestStep_init qt tol warn (rawTransform, gb)
      (viewboxCandidates gb (render_px : ℚ) (render_px : ℚ) "qtsvg_viewbox_keep"
          "qtsvg_viewbox_stretch" vbq
        ++ viewboxCandidates gb (render_px : ℚ) (render_px : ℚ) "svge_viewbox_keep"
          "svge_viewbox_stretch" vbs
        ++ sizeCandidates gb (render_px : ℚ) (render_px : ℚ) sz)
    exact hinit.trans heq
  refine ⟨i, hi, ?_, ?_, ?_, rfl, h2, h3⟩
  · show (some ((candidate_list gb (render_px : ℚ) (render_px : ℚ) vbq vbs sz).foldl
        (bestStep qt tol warn) ((none : Option ℚ), rawTransform, gb)).2.2 : Option XYXY) = _
    rw [hfold]
  · show ((candidate_list gb (render_px : ℚ) (render_px : ℚ) vbq vbs sz).foldl
        (bestStep qt tol warn) ((none : Option ℚ), rawTransform, gb)).2.1.kind = _
    rw [hfold]
  · show (some ((candidate_list gb (render_px : ℚ) (render_px : ℚ) vbq vbs sz).foldl
        (bestStep qt tol warn) ((none : Option ℚ), rawTransform, gb)).2.1.data
          : Option TransformData) = _
    rw [hfold]

/-- Witness for C2 at a concrete input with only the raw candidate. -/
theorem align_selects_first_min_witness :
    ∃ i : Nat, ∃ hi : i <
        (candidate_list (0, 0, 1, 1) ((100 : Int) : ℚ) ((100 : Int) : ℚ) none none
          none).length,
      (align_geom_bbox_to_qt (some (10, 10, 50, 50)) (some (0, 0, 1, 1)) 100 none none none
          3 8).1
          = some (((candidate_list (0, 0, 1, 1) ((100 : Int) : ℚ) ((100 : Int) : ℚ) none
              none none).get ⟨i, hi⟩).2) ∧
      (align_geom_bbox_to_qt (some (10, 10, 50, 50)) (some (0, 0, 1, 1)) 100 none none none
          3 8).2.chosen
          = ((candidate_list (0, 0, 1, 1) ((100 : Int) : ℚ) ((100 : Int) : ℚ) none none
              none).get ⟨i, hi⟩).1.kind ∧
      (align_geom_bbox_to_qt (some (10, 10, 50, 50)) (some (0, 0, 1, 1)) 100 none none none
          3 8).2.transform
          = some (((candidate_list (0, 0, 1, 1) ((100 : Int) : ℚ) ((100 : Int) : ℚ) none
              none none).get ⟨i, hi⟩).1.data) ∧
      (align_geom_bbox_to_qt (some (10, 10, 50, 50)) (some (0, 0, 1, 1)) 100 none none none
          3 8).2.candidates
          = (candidate_list (0, 0, 1, 1) ((100 : Int) : ℚ) ((100 : Int) : ℚ) none none
              none).map (candRecord (10, 10, 50, 50) 3 8) ∧
      (∀ j, ∀ hj : j <
          (candidate_list (0, 0, 1, 1) ((100 : Int) : ℚ) ((100 : Int) : ℚ) none none
            none).length,
        optLt (candScore (10, 10, 50, 50) 3 8
            ((candidate_list (0, 0, 1, 1) ((100 : Int) : ℚ) ((100 : Int) : ℚ) none none
              none).get ⟨j, hj⟩))
          (candScore (10, 10, 50, 50) 3 8
            ((candidate_list (0, 0, 1, 1) ((100 : Int) : ℚ) ((100 : Int) : ℚ) none none
              none).get ⟨i, hi⟩))
          = false) ∧
      (∀ j, ∀ hj : j <
          (candidate_list (0, 0, 1, 1) ((100 : Int) : ℚ) ((100 : Int) : ℚ) none none
            none).length, j < i →
        optLt (candScore (10, 10, 50, 50) 3 8
            ((candidate_list (0, 0, 1, 1) ((100 : Int) : ℚ) ((100 : Int) : ℚ) none none
              none).get ⟨i, hi⟩))
          (candScore (10, 10, 50, 50) 3 8
            ((candidate_list (0, 0, 1, 1) ((100 : Int) : ℚ) ((100 : Int) : ℚ) none none
              none).get ⟨j, hj⟩))
          = true) :=
  align_selects_first_min (10, 10, 50, 50) (0, 0, 1, 1) 100 none none none 3 8

/-- Counterexample for C3: a degenerate observed bbox (width and height
zero) is absent per the data model, yet align does not short-circuit; it
generates and records candidates. -/
theorem align_degenerate_observed_records_candidates :
    (align_geom_bbox_to_qt (some (0, 0, 0, 0)) (some (0, 0, 1, 1)) 100 none none none
      3 8).2.candidates ≠ [] := by
  simp [align_geom_bbox_to_qt, candidate_list, viewboxCandidates, sizeCandidates]

/-- C3 amended: align short-circuits exactly when the observed bbox or the
geometry bbox is missing, that is None or of a shape the coercion rejects;
it then returns the geometry input unchanged with chosen raw, a note, and
an empty candidate list.  A degenerate but well-shaped bbox instead
proceeds to candidate generation and scoring. -/
theorem align_short_circuit_on_missing (qt : Option QtBBox) (geom : Option XYXY)
    (render_px : Int) (vbq vbs : Option XYXY) (sz : Option (ℚ × ℚ)) (tol warn : ℚ)
    (h : qt = none ∨ geom = none) :
    (align_geom_bbox_to_qt qt geom render_px vbq vbs sz tol warn).1 = geom ∧
    (align_geom_bbox_to_qt qt geom render_px vbq vbs sz tol warn).2.chosen = "raw" ∧
    (align_geom_bbox_to_qt qt geom render_px vbq vbs sz tol warn).2.note.isSome = true ∧
    (align_geom_bbox_to_qt qt geom render_px vbq vbs sz tol warn).2.candidates = [] := by
  rcases h with h | h
  · subst h
    simp [align_geom_bbox_to_qt]
  · subst h
    cases qt with
    | none => simp [align_geom_bbox_to_qt]
    | some q => simp [align_geom_bbox_to_qt]

/-!
Helper lemmas for the normalizer claims.
-/

/-- The per-axis conversion of the code agrees with the conversion table of
the spec on every unit. -/
theorem docLenPx_eq_specLenToPx (v : ℚ) (u : UnitK) : docLenPx v u = specLenToPx v u := by
  cases u <;> simp [docLenPx, specLenToPx, _to_inches, CSS_PPI]

/-- Doc-size resolution of the embedded normalizer equals the spec-side
priority function on all attribute inputs. -/
theorem docSize_eq_docSizeSpec (w h vb : Option String) :
    ((normalize_svg_viewport (.doc w h vb)).doc_w,
      (normalize_svg_viewport (.doc w h vb)).doc_h)
      = docSizeSpec (_parse_length w) (_parse_length h) (_parse_viewbox vb) := by
  simp only [normalize_svg_viewport, docSizeSpec]
  rcases hw : (_parse_length w).1 with _ | wv <;> rcases hh : (_parse_length h).1 with _ | hv <;>
    simp [hw, hh]
  by_cases hp : (_parse_length w).2 = UnitK.percent ∨ (_parse_length h).2 = UnitK.percent
  · rw [if_pos hp, if_neg (by tauto)]
  · push_neg at hp
    rw [if_neg (by tauto), if_pos hp]
    simp [docLenPx_eq_specLenToPx]

/-- The inch conversion succeeds exactly on physical units. -/
theorem _to_inches_isSome_iff (v : ℚ) (u : UnitK) :
    (_to_inches v u).isSome = isPhysicalUnit u := by
  cases u <;> rfl

/-- A parsed viewBox has positive width and height. -/
theorem _parse_viewbox_pos (s : Option String) (v : XYXY) (h : _parse_viewbox s = some v) :
    0 < v.2.2.1 ∧ 0 < v.2.2.2 := by
  unfold _parse_viewbox at h
  split at h
  · exact absurd h (by simp)
  · split at h
    · exact absurd h (by simp)
    · dsimp only at h
      split at h
      · split at h
        · split at h
          · exact absurd h (by simp)
          · rename_i hwh
            push_neg at hwh
            obtain ⟨rfl⟩ := Option.some_inj.mp h
            exact ⟨lt_of_not_le (by simpa using hwh.1), lt_of_not_le (by simpa using hwh.2)⟩
        · exact absurd h (by simp)
      · exact absurd h (by simp)

/-- Nonnegative inputs give nonnegative spec-side conversions. -/
theorem specLenToPx_nonneg (v : ℚ) (u : UnitK) (hv : 0 ≤ v) : 0 ≤ specLenToPx v u := by
  cases u <;> simp [specLenToPx] <;> positivity

/-- The empty attribute list does not match the length regex. -/
theorem lenMatchRaw_nil : lenMatchRaw [] = none := rfl

/-- Every unit string outside the recognized table classifies as unknown. -/
theorem unitOfString_not_listed (ul : String)
    (h : ul ∉ (["", "%", "px", "mm", "cm", "in", "pt", "pc"] : List String)) :
    unitOfString ul = .unknown := by
  simp only [List.mem_cons, List.mem_singleton, not_or] at h
  obtain ⟨h1, h2, h3, h4, h5, h6, h7, h8⟩ := h
  simp [unitOfString, h1, h2, h3, h4, h5, h6, h7, h8]

/-- Parse evaluation of the 25.4mm example attribute. -/
theorem parse_25_4mm :
    _parse_length (some "25.4mm") = (some (lexedVal ⟨1, 25, 4, 1, 0⟩), UnitK.mm) := by
  have h1 : lenMatchRaw "25.4mm".data = some (⟨1, 25, 4, 1, 0⟩, "mm") := by decide
  have h2 : "25.4mm".data.isEmpty = false := by decide
  have h3 : unitOfString (asciiLower "mm") = UnitK.mm := by decide
  simp [_parse_length, lenMatch, h1, h2, h3]

/-- Parse evaluation of the 72pt example attribute. -/
theorem parse_72pt :
    _parse_length (some "72pt") = (some (lexedVal ⟨1, 72, 0, 0, 0⟩), UnitK.pt) := by
  have h1 : lenMatchRaw "72pt".data = some (⟨1, 72, 0, 0, 0⟩, "pt") := by decide
  have h2 : "72pt".data.isEmpty = false := by decide
  have h3 : unitOfString (asciiLower "pt") = UnitK.pt := by decide
  simp [_parse_length, lenMatch, h1, h2, h3]

/-- Parse evaluation of the 1in example attribute. -/
theorem parse_1in :
    _parse_length (some "1in") = (some (lexedVal ⟨1, 1, 0, 0, 0⟩), UnitK.inch) := by
  have h1 : lenMatchRaw "1in".data = some (⟨1, 1, 0, 0, 0⟩, "in") := by decide
  have h2 : "1in".data.isEmpty = false := by decide
  have h3 : unitOfString (asciiLower "in") = UnitK.inch := by decide
  simp [_parse_length, lenMatch, h1, h2, h3]

/-- C4: doc-size resolution follows the spec priority on every input: both
width and height parsed as non-percent lengths are converted directly
(physical units through inches at 96 px per inch), else a valid viewBox
supplies the size one to one, else the size is zero; in particular 25.4mm,
72pt and 1in all convert to 96 px. -/
theorem normalize_doc_size_resolution :
    (∀ w h vb, ((normalize_svg_viewport (.doc w h vb)).doc_w,
        (normalize_svg_viewport (.doc w h vb)).doc_h)
      = docSizeSpec (_parse_length w) (_parse_length h) (_parse_viewbox vb)) ∧
    (normalize_svg_viewport (.doc (some "25.4mm") (some "25.4mm") none)).doc_w = 96 ∧
    (normalize_svg_viewport (.doc (some "72pt") (some "72pt") none)).doc_w = 96 ∧
    (normalize_svg_viewport (.doc (some "1in") (some "1in") none)).doc_w = 96 := by
  refine ⟨docSize_eq_docSizeSpec, ?_, ?_, ?_⟩
  · have hd : (normalize_svg_viewport (.doc (some "25.4mm") (some "25.4mm") none)).doc_w
        = docLenPx (lexedVal ⟨1, 25, 4, 1, 0⟩) UnitK.mm := by
      simp [normalize_svg_viewport, parse_25_4mm, _parse_viewbox]
    rw [hd]
    norm_num [docLenPx, _to_inches, lexedVal, CSS_PPI]
    exact ⟨by simp, by simp⟩
  · have hd : (normalize_svg_viewport (.doc (some "72pt") (some "72pt") none)).doc_w
        = docLenPx (lexedVal ⟨1, 72, 0, 0, 0⟩) UnitK.pt := by
      simp [normalize_svg_viewport, parse_72pt, _parse_viewbox]
    rw [hd]
    norm_num [docLenPx, _to_inches, lexedVal, CSS_PPI]
    exact ⟨by simp, by simp⟩
  · have hd : (normalize_svg_viewport (.doc (some "1in") (some "1in") none)).doc_w
        = docLenPx (lexedVal ⟨1, 1, 0, 0, 0⟩) UnitK.inch := by
      simp [normalize_svg_viewport, parse_1in, _parse_viewbox]
    rw [hd]
    norm_num [docLenPx, _to_inches, lexedVal, CSS_PPI]
    exact ⟨by simp, by simp⟩

/-- Parse evaluation of the 100mm example attribute. -/
theorem parse_100mm :
    _parse_length (some "100mm") = (some (lexedVal ⟨1, 100, 0, 0, 0⟩), UnitK.mm) := by
  have h1 : lenMatchRaw "100mm".data = some (⟨1, 100, 0, 0, 0⟩, "mm") := by decide
  have h2 : "100mm".data.isEmpty = false := by decide
  have h3 : unitOfString (asciiLower "mm") = UnitK.mm := by decide
  simp [_parse_length, lenMatch, h1, h2, h3]

/-- Parse evaluation of the 50mm example attribute. -/
theorem parse_50mm :
    _parse_length (some "50mm") = (some (lexedVal ⟨1, 50, 0, 0, 0⟩), UnitK.mm) := by
  have h1 : lenMatchRaw "50mm".data = some (⟨1, 50, 0, 0, 0⟩, "mm") := by decide
  have h2 : "50mm".data.isEmpty = false := by decide
  have h3 : unitOfString (asciiLower "mm") = UnitK.mm := by decide
  simp [_parse_length, lenMatch, h1, h2, h3]

/-- Parse evaluation of the example viewBox 0 0 400 200. -/
theorem parse_vb_400_200 :
    _parse_viewbox (some "0 0 400 200") = some (0, 0, 400, 200) := by
  have hc : (splitChunks ((("0 0 400 200".data.dropWhile pyIsSpace).reverse.dropWhile
        pyIsSpace).reverse)).filter (fun t => !t.isEmpty)
      = [['0'], ['0'], ['4', '0', '0'], ['2', '0', '0']] := by decide
  have h0 : pyFloatRaw ['0'] = some ⟨1, 0, 0, 0, 0⟩ := by decide
  have h4 : pyFloatRaw ['4', '0', '0'] = some ⟨1, 400, 0, 0, 0⟩ := by decide
  have h2 : pyFloatRaw ['2', '0', '0'] = some ⟨1, 200, 0, 0, 0⟩ := by decide
  have hne : "0 0 400 200".data.isEmpty = false := by decide
  simp only [_parse_viewbox, hne, hc, pyFloat, h0, h4, h2, Option.map_some, Bool.false_eq_true,
    if_false]
  norm_num [lexedVal]

/-- C5: the ppi differs from the default 96 only when a valid viewBox is
present and at least one of width and height carries a physical unit; in
that case ppi is the mean of the available per-axis estimates viewbox
extent over inch length; the 100mm by 50mm document with viewBox
0 0 400 200 yields ppi exactly 101.6 with doc sizes within 0.01 px of
377.95 and 188.98. -/
theorem normalize_ppi_estimation :
    (∀ w h vb v, _parse_viewbox vb = some v →
      ppiEstimates (_parse_length w) v.2.2.1 ++ ppiEstimates (_parse_length h) v.2.2.2
          ≠ [] →
      (normalize_svg_viewport (.doc w h vb)).ppi
        = (ppiEstimates (_parse_length w) v.2.2.1
            ++ ppiEstimates (_parse_length h) v.2.2.2).sum
          / ((ppiEstimates (_parse_length w) v.2.2.1
            ++ ppiEstimates (_parse_length h) v.2.2.2).length : ℚ)) ∧
    (∀ w h vb, (normalize_svg_viewport (.doc w h vb)).ppi ≠ 96 →
      (_parse_viewbox vb).isSome = true ∧
      (isPhysicalUnit (_parse_length w).2 = true ∨
        isPhysicalUnit (_parse_length h).2 = true)) ∧
    (normalize_svg_viewport (.doc (some "100mm") (some "50mm")
        (some "0 0 400 200"))).ppi = 101.6 ∧
    |(normalize_svg_viewport (.doc (some "100mm") (some "50mm")
        (some "0 0 400 200"))).doc_w - 377.95| < 0.01 ∧
    |(normalize_svg_viewport (.doc (some "100mm") (some "50mm")
        (some "0 0 400 200"))).doc_h - 188.98| < 0.01 := by
  refine ⟨?_, ?_, ?_, ?_, ?_⟩
  · intro w h vb v hvb hne
    simp only [normalize_svg_viewport, hvb, ppiEstimates] at *
    rcases hwi : axisInches (_parse_length w) with _ | wi <;>
      rcases hhi : axisInches (_parse_length h) with _ | hi2 <;>
      simp only [hwi, hhi] at hne ⊢
    · simp at hne
    · rw [if_neg (by simpa [List.isEmpty_iff] using hne)]
    · rw [if_neg (by simpa [List.isEmpty_iff] using hne)]
    · rw [if_neg (by simpa [List.isEmpty_iff] using hne)]
  · intro w h vb hne96
    rcases hvb : _parse_viewbox vb with _ | v
    · simp [normalize_svg_viewport, hvb, CSS_PPI] at hne96
    · refine ⟨by simp [hvb], ?_⟩
      by_contra hphys
      push_neg at hphys
      obtain ⟨hpw2, hph2⟩ := hphys
      have hpw : isPhysicalUnit (_parse_length w).2 = false := by simpa using hpw2
      have hph : isPhysicalUnit (_parse_length h).2 = false := by simpa using hph2
      have hwi : axisInches (_parse_length w) = none := by
        unfold axisInches
        rcases hw1 : (_parse_length w).1 with _ | wv
        · rfl
        · have hs := _to_inches_isSome_iff wv (_parse_length w).2
          rw [hpw] at hs
          simpa using hs
      have hhi : axisInches (_parse_length h) = none := by
        unfold axisInches
        rcases hh1 : (_parse_length h).1 with _ | hv
        · rfl
        · have hs := _to_inches_isSome_iff hv (_parse_length h).2
          rw [hph] at hs
          simpa using hs
      simp [normalize_svg_viewport, hvb, hwi, hhi, CSS_PPI] at hne96
  · have hax1 : axisInches (_parse_length (some "100mm")) = some (lexedVal ⟨1, 100, 0, 0, 0⟩ / 25.4) := by
      simp [axisInches, parse_100mm, _to_inches]
    have hax2 : axisInches (_parse_length (some "50mm")) = some (lexedVal ⟨1, 50, 0, 0, 0⟩ / 25.4) := by
      simp [axisInches, parse_50mm, _to_inches]
    simp only [normalize_svg_viewport, parse_vb_400_200, hax1, hax2]
    norm_num [lexedVal]
  · have hd : (normalize_svg_viewport (.doc (some "100mm") (some "50mm")
        (some "0 0 400 200"))).doc_w = docLenPx (lexedVal ⟨1, 100, 0, 0, 0⟩) UnitK.mm := by
      simp [normalize_svg_viewport, parse_100mm, parse_50mm, parse_vb_400_200]
    rw [hd, abs_sub_lt_iff]
    constructor
    · norm_num [docLenPx, _to_inches, lexedVal, CSS_PPI]
      rw [if_neg (by simp)]
      norm_num
    · norm_num [docLenPx, _to_inches, lexedVal, CSS_PPI]
      rw [if_neg (by simp)]
      norm_num
  · have hd : (normalize_svg_viewport (.doc (some "100mm") (some "50mm")
        (some "0 0 400 200"))).doc_h = docLenPx (lexedVal ⟨1, 50, 0, 0, 0⟩) UnitK.mm := by
      simp [normalize_svg_viewport, parse_100mm, parse_50mm, parse_vb_400_200]
    rw [hd, abs_sub_lt_iff]
    constructor
    · norm_num [docLenPx, _to_inches, lexedVal, CSS_PPI]
      rw [if_neg (by simp)]
      norm_num
    · norm_num [docLenPx, _to_inches, lexedVal, CSS_PPI]
      rw [if_neg (by simp)]
      norm_num

/-- C8: on an unreadable file or malformed XML, normalize returns the
zeroed NormalizedViewport with default ppi 96, units unknown, no viewBox
and the error message recorded in raw; the embedded function is total, so
no exception escapes on any input. -/
theorem normalize_failure_is_zeroed :
    ∀ msg,
      normalize_svg_viewport (.unreadable msg)
          = ⟨0, 0, none, 96, .unknown, ⟨some msg, none, none, none⟩⟩ ∧
      normalize_svg_viewport (.malformed msg)
          = ⟨0, 0, none, 96, .unknown, ⟨some msg, none, none, none⟩⟩ :=
  fun _ => ⟨rfl, rfl⟩

/-- Counterexample for C9: a negative width attribute flows through to a
negative doc_w, so the canonical document size can be negative. -/
theorem normalize_negative_width :
    (normalize_svg_viewport (.doc (some "-10") (some "10") none)).doc_w < 0 := by
  have h1 : lenMatchRaw "-10".data = some (⟨-1, 10, 0, 0, 0⟩, "") := by decide
  have h2 : "-10".data.isEmpty = false := by decide
  have h3 : unitOfString (asciiLower "") = UnitK.px := by decide
  have hw : _parse_length (some "-10") = (some (lexedVal ⟨-1, 10, 0, 0, 0⟩), UnitK.px) := by
    simp [_parse_length, lenMatch, h1, h2, h3]
  have h4 : lenMatchRaw "10".data = some (⟨1, 10, 0, 0, 0⟩, "") := by decide
  have h5 : "10".data.isEmpty = false := by decide
  have hh : _parse_length (some "10") = (some (lexedVal ⟨1, 10, 0, 0, 0⟩), UnitK.px) := by
    simp [_parse_length, lenMatch, h4, h5, h3]
  have hd : (normalize_svg_viewport (.doc (some "-10") (some "10") none)).doc_w
      = docLenPx (lexedVal ⟨-1, 10, 0, 0, 0⟩) UnitK.px := by
    simp [normalize_svg_viewport, hw, hh, _parse_viewbox]
  rw [hd]
  norm_num [docLenPx, lexedVal]

/-- C9 amended: the doc size is nonnegative on failure inputs and on every
document whose parsed width and height attribute values, when present, are
nonnegative; a negative attribute value is carried through to a negative
doc size. -/
theorem normalize_doc_size_nonneg (w h vb : Option String)
    (hw : 0 ≤ (_parse_length w).1.getD 0) (hh : 0 ≤ (_parse_length h).1.getD 0) :
    (∀ msg, 0 ≤ (normalize_svg_viewport (.unreadable msg)).doc_w ∧
      0 ≤ (normalize_svg_viewport (.unreadable msg)).doc_h ∧
      0 ≤ (normalize_svg_viewport (.malformed msg)).doc_w ∧
      0 ≤ (normalize_svg_viewport (.malformed msg)).doc_h) ∧
    0 ≤ (normalize_svg_viewport (.doc w h vb)).doc_w ∧
    0 ≤ (normalize_svg_viewport (.doc w h vb)).doc_h := by
  refine ⟨fun msg => ⟨le_refl 0, le_refl 0, le_refl 0, le_refl 0⟩, ?_⟩
  have heq := docSize_eq_docSizeSpec w h vb
  have h1 : (normalize_svg_viewport (.doc w h vb)).doc_w
      = (docSizeSpec (_parse_length w) (_parse_length h) (_parse_viewbox vb)).1 :=
    congrArg Prod.fst heq
  have h2 : (normalize_svg_viewport (.doc w h vb)).doc_h
      = (docSizeSpec (_parse_length w) (_parse_length h) (_parse_viewbox vb)).2 :=
    congrArg Prod.snd heq
  have hfb : 0 ≤ (vbSizeFallback (_parse_viewbox vb)).1 ∧
      0 ≤ (vbSizeFallback (_parse_viewbox vb)).2 := by
    rcases hvb : _parse_viewbox vb with _ | v
    · simp [vbSizeFallback]
    · have := _parse_viewbox_pos vb v hvb
      simp [vbSizeFallback]
      exact ⟨le_of_lt this.1, le_of_lt this.2⟩
  rw [h1, h2]
  unfold docSizeSpec
  rcases hw1 : (_parse_length w).1 with _ | wv <;> rcases hh1 : (_parse_length h).1 with _ | hv
  · simpa using hfb
  · simpa using hfb
  · simpa using hfb
  · rw [hw1] at hw
    rw [hh1] at hh
    simp only [Option.getD_some] at hw hh
    by_cases hp : (_parse_length w).2 ≠ UnitK.percent ∧ (_parse_length h).2 ≠ UnitK.percent
    · simp only [if_pos hp]
      exact ⟨specLenToPx_nonneg wv _ hw, specLenToPx_nonneg hv _ hh⟩
    · simp only [if_neg hp]
      exact hfb

/-- Witness for the amended C9 at a nonnegative concrete input. -/
theorem normalize_doc_size_nonneg_witness :
    0 ≤ (_parse_length (some "10mm")).1.getD 0 ∧
    0 ≤ (_parse_length (some "20")).1.getD 0 ∧
    0 ≤ (normalize_svg_viewport (.doc (some "10mm") (some "20") none)).doc_w ∧
    0 ≤ (normalize_svg_viewport (.doc (some "10mm") (some "20") none)).doc_h := by
  have h1 : lenMatchRaw "10mm".data = some (⟨1, 10, 0, 0, 0⟩, "mm") := by decide
  have h2 : "10mm".data.isEmpty = false := by decide
  have h3 : unitOfString (asciiLower "mm") = UnitK.mm := by decide
  have hwp : _parse_length (some "10mm") = (some (lexedVal ⟨1, 10, 0, 0, 0⟩), UnitK.mm) := by
    simp [_parse_length, lenMatch, h1, h2, h3]
  have h4 : lenMatchRaw "20".data = some (⟨1, 20, 0, 0, 0⟩, "") := by decide
  have h5 : "20".data.isEmpty = false := by decide
  have h6 : unitOfString (asciiLower "") = UnitK.px := by decide
  have hhp : _parse_length (some "20") = (some (lexedVal ⟨1, 20, 0, 0, 0⟩), UnitK.px) := by
    simp [_parse_length, lenMatch, h4, h5, h6]
  have hw : 0 ≤ (_parse_length (some "10mm")).1.getD 0 := by
    rw [hwp]
    norm_num [lexedVal]
  have hh : 0 ≤ (_parse_length (some "20")).1.getD 0 := by
    rw [hhp]
    norm_num [lexedVal]
  have hmain := normalize_doc_size_nonneg (some "10mm") (some "20") none hw hh
  exact ⟨hw, hh, hmain.2.1, hmain.2.2⟩

/-- C10: an attribute whose numeric part matches but whose unit suffix is
outside the recognized table parses with unit unknown and its numeric value
is used as pixels as-is; when both attributes are of this form the doc size
is taken from them directly, taking precedence over a present viewBox, and
the reported units tag is unknown. -/
theorem unknown_unit_px_passthrough (w h : String) (vb : Option String)
    (pw ph : NumParts) (uw uh : String)
    (hw : lenMatchRaw w.data = some (pw, uw))
    (hh : lenMatchRaw h.data = some (ph, uh))
    (huw : asciiLower uw ∉ (["", "%", "px", "mm", "cm", "in", "pt", "pc"] : List String))
    (huh : asciiLower uh ∉ (["", "%", "px", "mm", "cm", "in", "pt", "pc"] : List String)) :
    _parse_length (some w) = (some (lexedVal pw), .unknown) ∧
    _parse_length (some h) = (some (lexedVal ph), .unknown) ∧
    (normalize_svg_viewport (.doc (some w) (some h) vb)).units = .unknown ∧
    (normalize_svg_viewport (.doc (some w) (some h) vb)).doc_w = lexedVal pw ∧
    (normalize_svg_viewport (.doc (some w) (some h) vb)).doc_h = lexedVal ph := by
  have hwne : w.data.isEmpty = false := by
    cases hempty : w.data.isEmpty
    · rfl
    · rw [List.isEmpty_iff] at hempty
      rw [hempty, lenMatchRaw_nil] at hw
      cases hw
  have hhne : h.data.isEmpty = false := by
    cases hempty : h.data.isEmpty
    · rfl
    · rw [List.isEmpty_iff] at hempty
      rw [hempty, lenMatchRaw_nil] at hh
      cases hh
  have hpw : _parse_length (some w) = (some (lexedVal pw), .unknown) := by
    simp [_parse_length, lenMatch, hw, hwne, unitOfString_not_listed _ huw]
  have hph : _parse_length (some h) = (some (lexedVal ph), .unknown) := by
    simp [_parse_length, lenMatch, hh, hhne, unitOfString_not_listed _ huh]
  refine ⟨hpw, hph, ?_, ?_, ?_⟩
  · simp [normalize_svg_viewport, hpw, hph]
  · simp [normalize_svg_viewport, hpw, hph, docLenPx]
  · simp [normalize_svg_viewport, hpw, hph, docLenPx]

/-- Witness for C10 with width 5em and height 7em over a present viewBox. -/
theorem unknown_unit_px_passthrough_witness :
    _parse_length (some "5em") = (some (lexedVal ⟨1, 5, 0, 0, 0⟩), .unknown) ∧
    _parse_length (some "7em") = (some (lexedVal ⟨1, 7, 0, 0, 0⟩), .unknown) ∧
    (normalize_svg_viewport (.doc (some "5em") (some "7em")
        (some "0 0 400 200"))).units = .unknown ∧
    (normalize_svg_viewport (.doc (some "5em") (some "7em")
        (some "0 0 400 200"))).doc_w = lexedVal ⟨1, 5, 0, 0, 0⟩ ∧
    (normalize_svg_viewport (.doc (some "5em") (some "7em")
        (some "0 0 400 200"))).doc_h = lexedVal ⟨1, 7, 0, 0, 0⟩ :=
  unknown_unit_px_passthrough "5em" "7em" (some "0 0 400 200")
    ⟨1, 5, 0, 0, 0⟩ ⟨1, 7, 0, 0, 0⟩ "em" "em" (by decide) (by decide) (by decide) (by decide)

/-- Witness for the amended C3 at a missing observed bbox. -/
theorem align_short_circuit_on_missing_witness :
    (align_geom_bbox_to_qt none (some (1, 2, 3, 4)) 100 none none none 3 8).1
        = some (1, 2, 3, 4) ∧
    (align_geom_bbox_to_qt none (some (1, 2, 3, 4)) 100 none none none 3 8).2.chosen
        = "raw" ∧
    (align_geom_bbox_to_qt none (some (1, 2, 3, 4)) 100 none none none 3 8).2.note.isSome
        = true ∧
    (align_geom_bbox_to_qt none (some (1, 2, 3, 4)) 100 none none none 3 8).2.candidates
        = [] :=
  align_short_circuit_on_missing none (some (1, 2, 3, 4)) 100 none none none 3 8
    (Or.inl rfl)

/-- Witness for C5 at the 100mm by 50mm example with viewBox 0 0 400 200. -/
theorem normalize_ppi_estimation_witness :
    (normalize_svg_viewport (.doc (some "100mm") (some "50mm")
        (some "0 0 400 200"))).ppi
        = (ppiEstimates (_parse_length (some "100mm")) 400
            ++ ppiEstimates (_parse_length (some "50mm")) 200).sum
          / ((ppiEstimates (_parse_length (some "100mm")) 400
            ++ ppiEstimates (_parse_length (some "50mm")) 200).length : ℚ) ∧
    (_parse_viewbox (some "0 0 400 200")).isSome = true ∧
    (isPhysicalUnit (_parse_length (some "100mm")).2 = true ∨
      isPhysicalUnit (_parse_length (some "50mm")).2 = true) := by
  have hax : axisInches (_parse_length (some "100mm"))
      = some (lexedVal ⟨1, 100, 0, 0, 0⟩ / 25.4) := by
    simp [axisInches, parse_100mm, _to_inches]
  have hE1 : ppiEstimates (_parse_length (some "100mm")) 400
      = [400 / (lexedVal ⟨1, 100, 0, 0, 0⟩ / 25.4)] := by
    simp only [ppiEstimates, hax]
    rw [if_pos (by norm_num [lexedVal])]
  have hne : ppiEstimates (_parse_length (some "100mm")) 400
      ++ ppiEstimates (_parse_length (some "50mm")) 200 ≠ [] := by
    rw [hE1]
    simp
  have h1 := normalize_ppi_estimation.1 (some "100mm") (some "50mm") (some "0 0 400 200")
    (0, 0, 400, 200) parse_vb_400_200 hne
  have hne96 : (normalize_svg_viewport (.doc (some "100mm") (some "50mm")
      (some "0 0 400 200"))).ppi ≠ 96 := by
    rw [normalize_ppi_estimation.2.2.1]
    norm_num
  have h2 := normalize_ppi_estimation.2.1 (some "100mm") (some "50mm")
    (some "0 0 400 200") hne96
  exact ⟨h1, h2.1, h2.2⟩

/-!
Stable-sort machinery for the reporter claims.
-/

/-- Stable insertion permutes to consing the new element. -/
theorem insertStable_perm {α : Type} (le : α → α → Bool) (a : α) (l : List α) :
    List.Perm (insertStable le a l) (a :: l) := by
  induction l with
  | nil => rfl
  | cons b bs ih =>
    unfold insertStable
    by_cases h : le b a = true
    · rw [if_pos h]
      exact (ih.cons b).trans (List.Perm.swap a b bs)
    · rw [if_neg h]

/-- The insertion-sort fold permutes to the accumulator followed by the
remaining input. -/
theorem sortStable_perm_aux {α : Type} (le : α → α → Bool) :
    ∀ (l acc : List α),
      List.Perm (List.foldl (fun acc a => insertStable le a acc) acc l) (acc ++ l) := by
  intro l
  induction l with
  | nil =>
    intro acc
    simp
  | cons a as ih =>
    intro acc
    rw [List.foldl_cons]
    have h1 := ih (insertStable le a acc)
    have h2 : List.Perm (insertStable le a acc ++ as) ((a :: acc) ++ as) :=
      (insertStable_perm le a acc).append_right as
    have h3 : List.Perm ((a :: acc) ++ as) (acc ++ a :: as) := by
      simpa using (@List.perm_middle _ a acc as).symm
    exact (h1.trans h2).trans h3

/-- The stable sort is a permutation of its input. -/
theorem sortStable_perm {α : Type} (le : α → α → Bool) (l : List α) :
    List.Perm (sortStable le l) l := by
  simpa using sortStable_perm_aux le l []

/-- Membership is preserved by the stable sort. -/
theorem mem_sortStable {α : Type} (le : α → α → Bool) (l : List α) (x : α) :
    x ∈ sortStable le l ↔ x ∈ l :=
  (sortStable_perm le l).mem_iff

/-- Stable insertion preserves sortedness for a total transitive order. -/
theorem insertStable_sorted {α : Type} (le : α → α → Bool)
    (htrans : ∀ a b c, le a b = true → le b c = true → le a c = true)
    (htot : ∀ a b, le a b = true ∨ le b a = true)
    (a : α) (l : List α) (hl : l.Pairwise (fun x y => le x y = true)) :
    (insertStable le a l).Pairwise (fun x y => le x y = true) := by
  induction l with
  | nil => simp [insertStable]
  | cons b bs ih =>
    rcases List.pairwise_cons.mp hl with ⟨hb, hbs⟩
    unfold insertStable
    by_cases h : le b a = true
    · rw [if_pos h]
      refine List.pairwise_cons.mpr ⟨?_, ih hbs⟩
      intro y hy
      have hy2 : y ∈ a :: bs := (insertStable_perm le a bs).mem_iff.mp hy
      rcases List.mem_cons.mp hy2 with rfl | hybs
      · exact h
      · exact hb y hybs
    · rw [if_neg h]
      have hab : le a b = true := by
        rcases htot a b with h1 | h1
        · exact h1
        · exact absurd h1 h
      refine List.pairwise_cons.mpr ⟨?_, hl⟩
      intro y hy
      rcases List.mem_cons.mp hy with rfl | hybs
      · exact hab
      · exact htrans a b y hab (hb y hybs)

/-- The stable sort is sorted for a total transitive order. -/
theorem sortStable_sorted {α : Type} (le : α → α → Bool)
    (htrans : ∀ a b c, le a b = true → le b c = true → le a c = true)
    (htot : ∀ a b, le a b = true ∨ le b a = true)
    (l : List α) :
    (sortStable le l).Pairwise (fun x y => le x y = true) := by
  suffices h : ∀ (l acc : List α), acc.Pairwise (fun x y => le x y = true) →
      (List.foldl (fun acc a => insertStable le a acc) acc l).Pairwise
        (fun x y => le x y = true) from h l [] (by simp)
  intro l
  induction l with
  | nil =>
    intro acc hacc
    simpa using hacc
  | cons a as ih =>
    intro acc hacc
    rw [List.foldl_cons]
    exact ih _ (insertStable_sorted le htrans htot a acc hacc)

/-- Totality of the lexicographic key order. -/
theorem keyLe_total (a b : Int × ℚ) : keyLe a b = true ∨ keyLe b a = true := by
  unfold keyLe
  rcases lt_trichotomy a.1 b.1 with h | h | h
  · left
    simp [h]
  · rcases le_total a.2 b.2 with h2 | h2
    · left
      simp [h, h2]
    · right
      simp [h.symm, h2]
  · right
    simp [h]

/-- Transitivity of the lexicographic key order. -/
theorem keyLe_trans (a b c : Int × ℚ) (h1 : keyLe a b = true) (h2 : keyLe b c = true) :
    keyLe a c = true := by
  unfold keyLe at *
  simp only [Bool.or_eq_true, Bool.and_eq_true, decide_eq_true_eq] at *
  rcases h1 with h1 | ⟨h1e, h1le⟩ <;> rcases h2 with h2 | ⟨h2e, h2le⟩
  · left
    omega
  · left
    omega
  · left
    omega
  · right
    exact ⟨by omega, le_trans h1le h2le⟩

/-- Filter condition of rank_items in terms of the status sets of the
specification. -/
theorem is_actionable_iff (status : Option String) (inc : Bool) :
    is_actionable status inc = true ↔
      (asciiUpper (asciiStrip (status.getD "")) ∈ ACTIONABLE_STATUSES ∨
        (inc = true ∧ asciiUpper (asciiStrip (status.getD "")) = "NO_GEOM")) := by
  unfold is_actionable
  by_cases h : (inc && ((asciiUpper (asciiStrip (status.getD ""))) == "NO_GEOM")) = true
  · rw [if_pos h]
    simp only [Bool.and_eq_true, beq_iff_eq] at h
    simp [h]
  · rw [if_neg h]
    simp only [Bool.and_eq_true, beq_iff_eq, not_and] at h
    constructor
    · intro hc
      left
      simpa using hc
    · intro hc
      rcases hc with hc | ⟨hinc, hng⟩
      · simpa using hc
      · exact absurd hng (h hinc)

/-- Counterexample for C6: an INVISIBLE item without numeric error carries
the sentinel error 1e9, not the maximum possible error, so an INVISIBLE
item with a recorded error of 2e9 ranks above it within the same tier. -/
theorem rank_invisible_sentinel_not_max :
    rank_items [⟨some "x", none, some "INVISIBLE", none⟩,
        ⟨some "y", none, some "INVISIBLE", some 2000000000⟩] false none
      = [⟨some "y", none, some "INVISIBLE", some 2000000000⟩,
        ⟨some "x", none, some "INVISIBLE", none⟩] := by decide

/-- C6 amended: rank_items keeps exactly the items whose normalized status
is WARN, FAIL or INVISIBLE, plus NO_GEOM when includeNoGeom is set; the
survivors are sorted descending by the key pair of severity and error,
where an INVISIBLE item without numeric error is keyed with the sentinel
error 1e9 and any other item without numeric error with -1.0; a given
limit truncates the sorted result; and the PASS, WARN, FAIL, INVISIBLE,
NO_GEOM example returns the INVISIBLE, FAIL and WARN items in that order. -/
theorem rank_items_spec :
    (∀ (items : List Item) (inc : Bool) (x : Item),
      x ∈ rank_items items inc none ↔ x ∈ items ∧
        (asciiUpper (asciiStrip (x.status.getD "")) ∈ ACTIONABLE_STATUSES ∨
          (inc = true ∧ asciiUpper (asciiStrip (x.status.getD "")) = "NO_GEOM"))) ∧
    (∀ (items : List Item) (inc : Bool),
      (rank_items items inc none).Pairwise
        (fun a b => keyLe (rank_key b) (rank_key a) = true)) ∧
    (∀ (items : List Item) (inc : Bool) (n : Nat),
      rank_items items inc (some n) = (rank_items items inc none).take n) ∧
    rank_items [⟨some "a", none, some "PASS", some 0⟩,
        ⟨some "b", none, some "WARN", some 5⟩,
        ⟨some "c", none, some "FAIL", some 10⟩,
        ⟨some "d", none, some "INVISIBLE", none⟩,
        ⟨some "e", none, some "NO_GEOM", none⟩] false none
      = [⟨some "d", none, some "INVISIBLE", none⟩,
        ⟨some "c", none, some "FAIL", some 10⟩,
        ⟨some "b", none, some "WARN", some 5⟩] := by
  refine ⟨?_, ?_, ?_, ?_⟩
  · intro items inc x
    show x ∈ sortStable (fun a b => keyLe (rank_key b) (rank_key a))
        (items.filter (fun it => is_actionable it.status inc)) ↔ _
    rw [mem_sortStable, List.mem_filter, is_actionable_iff]
  · intro items inc
    show (sortStable (fun a b => keyLe (rank_key b) (rank_key a))
        (items.filter (fun it => is_actionable it.status inc))).Pairwise _
    exact sortStable_sorted _
      (fun a b c h1 h2 => keyLe_trans (rank_key c) (rank_key b) (rank_key a) h2 h1)
      (fun a b => (keyLe_total (rank_key a) (rank_key b)).symm) _
  · intro items inc n
    rfl
  · decide

/-!
Fold characterisation of compare_reports.
-/

/-- One loop step appends exactly the per-entry contributions. -/
theorem pairStep_eq (cmap : List (String × Item)) (eps : ℚ)
    (acc : List RegEntry × List RegEntry × Nat × List String) (kb : String × Item) :
    pairStep cmap eps acc kb
      = (acc.1 ++ (regPick cmap eps kb).toList,
         acc.2.1 ++ (impPick cmap eps kb).toList,
         acc.2.2.1 + (if unchPick cmap eps kb then 1 else 0),
         acc.2.2.2 ++ (missPick cmap kb).toList) := by
  rcases hdg : dictGet kb.1 cmap with _ | c
  · simp [pairStep, regPick, impPick, unchPick, missPick, hdg]
  · rcases hdelta : (mkEntry kb.1 kb.2 c).delta_max_abs_err_px with _ | d
    · simp only [pairStep, regPick, impPick, unchPick, missPick, hdg, hdelta]
      split_ifs <;> simp_all
    · simp only [pairStep, regPick, impPick, unchPick, missPick, hdg, hdelta]
      split_ifs <;> simp_all

/-- The loop fold of compare_reports appends the filterMap views of the
four accumulators. -/
theorem pairStep_foldl (cmap : List (String × Item)) (eps : ℚ) :
    ∀ (l : List (String × Item)) (regs imps : List RegEntry) (unch : Nat)
      (miss : List String),
      List.foldl (pairStep cmap eps) (regs, imps, unch, miss) l
        = (regs ++ l.filterMap (regPick cmap eps),
           imps ++ l.filterMap (impPick cmap eps),
           unch + l.countP (unchPick cmap eps),
           miss ++ l.filterMap (missPick cmap)) := by
  intro l
  induction l with
  | nil =>
    intro regs imps unch miss
    simp
  | cons kb l ih =>
    intro regs imps unch miss
    rw [List.foldl_cons, pairStep_eq, ih]
    refine Prod.ext ?_ (Prod.ext ?_ (Prod.ext ?_ ?_))
    · show (regs ++ (regPick cmap eps kb).toList) ++ l.filterMap (regPick cmap eps)
        = regs ++ (kb :: l).filterMap (regPick cmap eps)
      rw [List.filterMap_cons]
      rcases regPick cmap eps kb with _ | e <;> simp
    · show (imps ++ (impPick cmap eps kb).toList) ++ l.filterMap (impPick cmap eps)
        = imps ++ (kb :: l).filterMap (impPick cmap eps)
      rw [List.filterMap_cons]
      rcases impPick cmap eps kb with _ | e <;> simp
    · show (unch + (if unchPick cmap eps kb then 1 else 0))
          + l.countP (unchPick cmap eps)
        = unch + (kb :: l).countP (unchPick cmap eps)
      rw [List.countP_cons]
      by_cases h : unchPick cmap eps kb = true <;> simp [h] <;> omega
    · show (miss ++ (missPick cmap kb).toList) ++ l.filterMap (missPick cmap)
        = miss ++ (kb :: l).filterMap (missPick cmap)
      rw [List.filterMap_cons]
      rcases missPick cmap kb with _ | k <;> simp

/-- A successful dict lookup exhibits a member. -/
theorem dictGet_mem {α : Type} (k : String) (v : α) :
    ∀ m : List (String × α), dictGet k m = some v → (k, v) ∈ m := by
  intro m
  induction m with
  | nil =>
    intro h
    cases h
  | cons p ps ih =>
    intro h
    unfold dictGet at h
    by_cases hk : p.1 = k
    · rw [if_pos hk] at h
      have hv : p.2 = v := Option.some_inj.mp h
      have hp : p = (k, v) := by
        rcases p with ⟨p1, p2⟩
        simp at hk hv
        rw [hk, hv]
      rw [← hp]
      exact List.mem_cons_self p ps
    · rw [if_neg hk] at h
      exact List.mem_cons_of_mem p (ih h)

/-- A member key makes the dict lookup succeed. -/
theorem dictGet_isSome_of_mem {α : Type} (k : String) (v : α) :
    ∀ m : List (String × α), (k, v) ∈ m → (dictGet k m).isSome = true := by
  intro m
  induction m with
  | nil =>
    intro h
    cases h
  | cons p ps ih =>
    intro h
    unfold dictGet
    by_cases hk : p.1 = k
    · rw [if_pos hk]
      rfl
    · rw [if_neg hk]
      rcases List.mem_cons.mp h with heq | hmem
      · exact absurd (congrArg Prod.fst heq.symm) hk
      · exact ih hmem

/-- Every extracted regression entry satisfies the spec-side regression
condition. -/
theorem regPick_sound (cmap : List (String × Item)) (eps : ℚ) (kb : String × Item)
    (e : RegEntry) (h : regPick cmap eps kb = some e) : regCondE e eps := by
  unfold regPick at h
  rcases hdg : dictGet kb.1 cmap with _ | c
  · rw [hdg] at h
    simp at h
  · rw [hdg] at h
    dsimp only at h
    rcases hdelta : (mkEntry kb.1 kb.2 c).delta_max_abs_err_px with _ | d <;>
      rw [hdelta] at h <;> dsimp only at h
    · split_ifs at h with h1 h2 h3
      obtain rfl := Option.some_inj.mp h
      push_neg at h1
      exact ⟨h1.1, h1.2, Or.inl h2⟩
    · split_ifs at h with h1 h2 h3 h4
      · obtain rfl := Option.some_inj.mp h
        push_neg at h1
        exact ⟨h1.1, h1.2, Or.inl h2⟩
      · obtain rfl := Option.some_inj.mp h
        push_neg at h1
        exact ⟨h1.1, h1.2, Or.inr ⟨by omega, d, hdelta, h4⟩⟩

/-- Every extracted improvement entry satisfies the spec-side improvement
condition. -/
theorem impPick_sound (cmap : List (String × Item)) (eps : ℚ) (kb : String × Item)
    (e : RegEntry) (h : impPick cmap eps kb = some e) : impCondE e eps := by
  unfold impPick at h
  rcases hdg : dictGet kb.1 cmap with _ | c
  · rw [hdg] at h
    simp at h
  · rw [hdg] at h
    dsimp only at h
    rcases hdelta : (mkEntry kb.1 kb.2 c).delta_max_abs_err_px with _ | d <;>
      rw [hdelta] at h <;> dsimp only at h
    · split_ifs at h with h1 h2 h3
      obtain rfl := Option.some_inj.mp h
      push_neg at h1
      exact ⟨h1.1, h1.2, Or.inl h3⟩
    · split_ifs at h with h1 h2 h3 h4 h5
      · obtain rfl := Option.some_inj.mp h
        push_neg at h1
        exact ⟨h1.1, h1.2, Or.inl h3⟩
      · obtain rfl := Option.some_inj.mp h
        push_neg at h1
        exact ⟨h1.1, h1.2, Or.inr ⟨by omega, d, hdelta, h5⟩⟩

/-- A matched pair satisfying the regression condition is extracted. -/
theorem regPick_complete (cmap : List (String × Item)) (eps : ℚ) (k : String)
    (b c : Item) (hc : dictGet k cmap = some c)
    (hcond : regCondE (mkEntry k b c) eps) :
    regPick cmap eps (k, b) = some (mkEntry k b c) := by
  unfold regPick
  rw [show ((k, b) : String × Item).1 = k from rfl, hc]
  dsimp only
  obtain ⟨hb, hcs, hsev⟩ := hcond
  rw [if_neg (by tauto)]
  rcases hsev with hlt | ⟨heq, d, hd, hdg⟩
  · rw [if_pos hlt]
  · rw [if_neg (by omega), if_neg (by omega), hd]
    dsimp only
    rw [if_pos hdg]

/-- A matched pair satisfying the improvement condition is extracted; a
nonnegative epsilon rules out the overlap in which a delta would satisfy
both threshold tests at once. -/
theorem impPick_complete (cmap : List (String × Item)) (eps : ℚ) (heps : 0 ≤ eps)
    (k : String) (b c : Item) (hc : dictGet k cmap = some c)
    (hcond : impCondE (mkEntry k b c) eps) :
    impPick cmap eps (k, b) = some (mkEntry k b c) := by
  unfold impPick
  rw [show ((k, b) : String × Item).1 = k from rfl, hc]
  dsimp only
  obtain ⟨hb, hcs, hsev⟩ := hcond
  rw [if_neg (by tauto)]
  rcases hsev with hlt | ⟨heq, d, hd, hdg⟩
  · rw [if_neg (by omega), if_pos hlt]
  · rw [if_neg (by omega), if_neg (by omega), hd]
    dsimp only
    rw [if_neg (by linarith), if_pos hdg]

/-- Each matched baseline entry lands in exactly one bucket. -/
theorem pick_partition (cmap : List (String × Item)) (eps : ℚ) (kb : String × Item) :
    (if unchPick cmap eps kb then 1 else 0) + (regPick cmap eps kb).toList.length
        + (impPick cmap eps kb).toList.length
      = if (dictGet kb.1 cmap).isSome then 1 else 0 := by
  rcases hdg : dictGet kb.1 cmap with _ | c
  · simp [unchPick, regPick, impPick, hdg]
  · rcases hdelta : (mkEntry kb.1 kb.2 c).delta_max_abs_err_px with _ | d
    · simp only [unchPick, regPick, impPick, hdg, hdelta, Option.isSome_some, if_true]
      split_ifs <;> simp_all
    · simp only [unchPick, regPick, impPick, hdg, hdelta, Option.isSome_some, if_true]
      split_ifs <;> simp_all

/-- Summed over the baseline map, the buckets partition the matched pairs. -/
theorem partition_count (cmap : List (String × Item)) (eps : ℚ) :
    ∀ l : List (String × Item),
      l.countP (unchPick cmap eps) + (l.filterMap (regPick cmap eps)).length
          + (l.filterMap (impPick cmap eps)).length
        = (l.filter (fun kb => (dictGet kb.1 cmap).isSome)).length := by
  intro l
  induction l with
  | nil => simp
  | cons kb l ih =>
    rw [List.countP_cons, List.filterMap_cons, List.filterMap_cons, List.filter_cons]
    have hp := pick_partition cmap eps kb
    rcases hr : regPick cmap eps kb with _ | e <;>
      rcases hi : impPick cmap eps kb with _ | e2 <;>
      rw [hr, hi] at hp <;>
      cases hu : unchPick cmap eps kb <;>
      rw [hu] at hp <;>
      cases hs : (dictGet kb.1 cmap).isSome <;>
      rw [hs] at hp <;>
      simp_all <;>
      omega

/-- C7: in compare_reports, a key is listed missing exactly when it is a
baseline key with no current match, and listed new exactly when it is a
current key with no baseline match; a matched pair appears among the
regressions exactly when neither side is NO_GEOM and current severity
exceeds baseline severity or, at equal severity, the error delta exceeds
errEps, and among the improvements exactly under the symmetric inverse;
every other matched pair, the NO_GEOM ones included, is counted as
unchanged, the three buckets partitioning the matched pairs.  The
tolerance errEps is taken nonnegative, as the default 0.5 is. -/
theorem compare_reports_classification (normKey : String → String)
    (baseline_items current_items : List Item) (err_eps : ℚ) (heps : 0 ≤ err_eps) :
    (∀ k, k ∈ (compare_reports normKey baseline_items current_items err_eps).missing ↔
      ((dictGet k (to_map normKey baseline_items)).isSome = true ∧
        dictGet k (to_map normKey current_items) = none)) ∧
    (∀ k, k ∈ (compare_reports normKey baseline_items current_items err_eps).newKeys ↔
      ((dictGet k (to_map normKey current_items)).isSome = true ∧
        dictGet k (to_map normKey baseline_items) = none)) ∧
    (∀ k b c, dictGet k (to_map normKey baseline_items) = some b →
      dictGet k (to_map normKey current_items) = some c →
      ((mkEntry k b c
          ∈ (compare_reports normKey baseline_items current_items err_eps).regressions
          ↔ regCondE (mkEntry k b c) err_eps) ∧
        (mkEntry k b c
          ∈ (compare_reports normKey baseline_items current_items err_eps).improvements
          ↔ impCondE (mkEntry k b c) err_eps))) ∧
    (compare_reports normKey baseline_items current_items err_eps).counts_unchanged
        + (compare_reports normKey baseline_items current_items err_eps).counts_regressions
        + (compare_reports normKey baseline_items current_items err_eps).counts_improvements
      = ((to_map normKey baseline_items).filter
          (fun kb => (dictGet kb.1 (to_map normKey current_items)).isSome)).length := by
  have hfold := pairStep_foldl (to_map normKey current_items) err_eps
    (to_map normKey baseline_items) [] [] 0 []
  have hmiss : (compare_reports normKey baseline_items current_items err_eps).missing
      = (to_map normKey baseline_items).filterMap
          (missPick (to_map normKey current_items)) := by
    show (List.foldl (pairStep (to_map normKey current_items) err_eps) ([], [], 0, [])
        (to_map normKey baseline_items)).2.2.2 = _
    rw [hfold]
    simp
  have hregs : (compare_reports normKey baseline_items current_items err_eps).regressions
      = sortStable (fun a b => keyLe (reg_key b) (reg_key a))
          ((to_map normKey baseline_items).filterMap
            (regPick (to_map normKey current_items) err_eps)) := by
    show sortStable (fun a b => keyLe (reg_key b) (reg_key a))
        (List.foldl (pairStep (to_map normKey current_items) err_eps) ([], [], 0, [])
          (to_map normKey baseline_items)).1 = _
    rw [hfold]
    simp
  have himps : (compare_reports normKey baseline_items current_items err_eps).improvements
      = (to_map normKey baseline_items).filterMap
          (impPick (to_map normKey current_items) err_eps) := by
    show (List.foldl (pairStep (to_map normKey current_items) err_eps) ([], [], 0, [])
        (to_map normKey baseline_items)).2.1 = _
    rw [hfold]
    simp
  have hnew : (compare_reports normKey baseline_items current_items err_eps).newKeys
      = ((to_map normKey current_items).filter
          (fun kc => (dictGet kc.1 (to_map normKey baseline_items)).isNone)).map
          Prod.fst := rfl
  have hcu : (compare_reports normKey baseline_items current_items
        err_eps).counts_unchanged
      = (to_map normKey baseline_items).countP
          (unchPick (to_map normKey current_items) err_eps) := by
    show (List.foldl (pairStep (to_map normKey current_items) err_eps) ([], [], 0, [])
        (to_map normKey baseline_items)).2.2.1 = _
    rw [hfold]
    simp
  have hci : (compare_reports normKey baseline_items current_items
        err_eps).counts_improvements
      = ((to_map normKey baseline_items).filterMap
          (impPick (to_map normKey current_items) err_eps)).length := by
    show (List.foldl (pairStep (to_map normKey current_items) err_eps) ([], [], 0, [])
        (to_map normKey baseline_items)).2.1.length = _
    rw [hfold]
    simp
  have hcr : (compare_reports normKey baseline_items current_items
        err_eps).counts_regressions
      = ((to_map normKey baseline_items).filterMap
          (regPick (to_map normKey current_items) err_eps)).length := by
    show (sortStable (fun a b => keyLe (reg_key b) (reg_key a))
        (List.foldl (pairStep (to_map normKey current_items) err_eps) ([], [], 0, [])
          (to_map normKey baseline_items)).1).length = _
    rw [hfold]
    simp only [List.nil_append]
    exact (sortStable_perm _ _).length_eq
  refine ⟨?_, ?_, ?_, ?_⟩
  · intro k
    rw [hmiss, List.mem_filterMap]
    constructor
    · rintro ⟨kb, hkb, hpick⟩
      unfold missPick at hpick
      rcases hdg : dictGet kb.1 (to_map normKey current_items) with _ | c2 <;>
        rw [hdg] at hpick
      · obtain rfl := Option.some_inj.mp hpick
        exact ⟨dictGet_isSome_of_mem kb.1 kb.2 _ hkb, hdg⟩
      · simp at hpick
    · rintro ⟨hsome, hnone⟩
      obtain ⟨b, hb⟩ := Option.isSome_iff_exists.mp hsome
      refine ⟨(k, b), dictGet_mem k b _ hb, ?_⟩
      unfold missPick
      rw [show ((k, b) : String × Item).1 = k from rfl, hnone]
  · intro k
    rw [hnew, List.mem_map]
    constructor
    · rintro ⟨kc, hmem, hfst⟩
      obtain ⟨hkcC, hfilter⟩ := List.mem_filter.mp hmem
      subst hfst
      refine ⟨dictGet_isSome_of_mem kc.1 kc.2 _ hkcC, ?_⟩
      simpa using hfilter
    · rintro ⟨hsome, hnone⟩
      obtain ⟨c2, hc2⟩ := Option.isSome_iff_exists.mp hsome
      exact ⟨(k, c2), List.mem_filter.mpr ⟨dictGet_mem k c2 _ hc2, by simp [hnone]⟩, rfl⟩
  · intro k b c hbB hcC
    constructor
    · rw [hregs, mem_sortStable, List.mem_filterMap]
      constructor
      · rintro ⟨kb, hkb, hpick⟩
        exact regPick_sound _ _ _ _ hpick
      · intro hcond
        exact ⟨(k, b), dictGet_mem k b _ hbB, regPick_complete _ _ k b c hcC hcond⟩
    · rw [himps, List.mem_filterMap]
      constructor
      · rintro ⟨kb, hkb, hpick⟩
        exact impPick_sound _ _ _ _ hpick
      · intro hcond
        exact ⟨(k, b), dictGet_mem k b _ hbB,
          impPick_complete _ _ heps k b c hcC hcond⟩
  · rw [hcu, hcr, hci]
    exact partition_count _ _ _

/-- Witness for C7 at the spec example: baseline keys a.svg and b.svg,
current keys b.svg and c.svg, with errEps 1. -/
theorem compare_reports_classification_witness :
    ("a.svg" ∈ (compare_reports id
        [⟨some "a.svg", none, some "PASS", some 1⟩,
          ⟨some "b.svg", none, some "PASS", some 1⟩]
        [⟨some "b.svg", none, some "WARN", some 4⟩,
          ⟨some "c.svg", none, some "FAIL", some 9⟩] 1).missing ↔
      ((dictGet "a.svg" (to_map id
          [⟨some "a.svg", none, some "PASS", some 1⟩,
            ⟨some "b.svg", none, some "PASS", some 1⟩])).isSome = true ∧
        dictGet "a.svg" (to_map id
          [⟨some "b.svg", none, some "WARN", some 4⟩,
            ⟨some "c.svg", none, some "FAIL", some 9⟩]) = none)) ∧
    ((mkEntry "b.svg" ⟨some "b.svg", none, some "PASS", some 1⟩
        ⟨some "b.svg", none, some "WARN", some 4⟩
        ∈ (compare_reports id
          [⟨some "a.svg", none, some "PASS", some 1⟩,
            ⟨some "b.svg", none, some "PASS", some 1⟩]
          [⟨some "b.svg", none, some "WARN", some 4⟩,
            ⟨some "c.svg", none, some "FAIL", some 9⟩] 1).regressions) ↔
      regCondE (mkEntry "b.svg" ⟨some "b.svg", none, some "PASS", some 1⟩
        ⟨some "b.svg", none, some "WARN", some 4⟩) 1) := by
  have h := compare_reports_classification id
    [⟨some "a.svg", none, some "PASS", some 1⟩,
      ⟨some "b.svg", none, some "PASS", some 1⟩]
    [⟨some "b.svg", none, some "WARN", some 4⟩,
      ⟨some "c.svg", none, some "FAIL", some 9⟩] 1 (by decide)
  exact ⟨h.1 "a.svg", (h.2.2.1 "b.svg" _ _ (by decide) (by decide)).1⟩

end RCS
